import Mathlib

/-!
Shallow embedding of the resumable multipart upload subsystem of the
`multipart-uplolad` repository, together with proofs about it.

Source files embedded here:
- `src/apps/backend/src/features/uploadConstants.ts` (constants)
- `src/apps/backend/src/features/user.ts` (upload session manager:
  `validateInitiateInput`, `validateCompletedParts`, `initiateUpload`,
  `completeUpload`, `abortUpload`, `submitTender`)
- `src/apps/backend/src/features/r2Multipart.ts` (storage adapter:
  error normalization, error classification, bounded retry loop)
- `src/apps/web/app/hooks/useFormStatePersistence.ts` (single-slot
  coalescing save queue)
- the client form route (`src/unnamed/part_014`): `toUploadProgress`,
  the loader reconciliation of persisted form state against server status,
  and the progress assignments in `handleStartUpload`.

Modelling conventions:
- Database effects are modelled by explicit state passing over a `Db`
  record of row lists; a drizzle `select ... where` is a `List.find?` /
  `List.filter`, an `update ... where` is a `List.map` guarded by the same
  predicate, an `insert` is a list append.  Inserts carry `.returning` in
  the source and are checked for emptiness there; a list append always
  yields the inserted row, so those error branches are unrepresentable and
  are omitted (noted at each definition).
- Calls to the storage provider (`r2Multipart.ts` functions awaited by
  `user.ts`) are modelled as explicit `ServiceResult` parameters: the
  caller only branches on the awaited result.
- JS numbers used as integers are `Int`.  `fileSizeBytes` arrives from the
  client and is guarded by `Number.isInteger`; it is modelled as `Rat`,
  with the integrality test `den = 1` and all further uses reading `num`
  (exact because the code only uses the value after the integrality
  guard passed, apart from the short-circuiting validation disjunction
  itself, which rejects every non-integer before any comparison matters).
- `Date.now()` and generated random ids are oracle arguments (`now`,
  `fresh...`).
- JS float arithmetic: `Math.ceil(a / b)` with `b = 2^23` divides by a
  power of two, which is exact in binary64 for every value passing
  validation, so it is written with `Int.fdiv`.  The client progress
  expression `Math.floor((completedParts / totalParts) * 98)` is NOT
  exact in binary64 (e.g. `(1 / 49) * 98` evaluates to
  `1.9999999999999998`), so it is modelled by an explicit
  round-to-nearest-even binary64 model built from integer arithmetic
  (`bitlen`, `floorLog2`, `rne`, `roundRatPos`, `jsDivDouble`,
  `jsMul98Double`, `jsFloorDouble`); the model uses an unbounded exponent,
  which agrees with binary64 whenever no overflow or underflow occurs —
  true for every intermediate value of this expression on the program's
  part counts.
-/

namespace MultipartUpload

/-! ## JS string / number primitives used by the embedded code -/

/-- Embeds JS `String.prototype.trim`: strip whitespace from both ends. -/
def jsTrim (s : String) : String :=
  String.mk (((s.toList.dropWhile Char.isWhitespace).reverse.dropWhile
    Char.isWhitespace).reverse)

/-- Embeds JS `String.prototype.toLowerCase` for the ASCII strings used by
the error classifier. -/
def jsToLower (s : String) : String :=
  String.mk (s.toList.map Char.toLower)

def charsStartWith (pat l : List Char) : Bool :=
  match pat, l with
  | [], _ => true
  | _ :: _, [] => false
  | p :: ps, c :: cs => p == c && charsStartWith ps cs

def charsContainSeq (pat : List Char) : List Char → Bool
  | [] => charsStartWith pat []
  | c :: cs => charsStartWith pat (c :: cs) || charsContainSeq pat cs

/-- Embeds JS `String.prototype.includes`. -/
def stringIncludes (s pat : String) : Bool :=
  charsContainSeq pat.toList s.toList

/-- Embeds JS `Math.ceil(a / b)` for integers `a` and positive integer `b`
(exact for the ranges used: the code divides by `2^23`, which is exact in
doubles for every value passing validation). -/
def jsCeilDivInt (a b : Int) : Int :=
  -((-a).fdiv b)

/-! ## Constants (`uploadConstants.ts`) -/

def UploadQuestionIds : List String := ["q1", "q2", "q3", "q4", "q5"]

def RequiredUploadQuestionIds : List String := ["q1", "q2", "q3", "q5"]

def UploadPartSizeBytes : Int := 8 * 1024 * 1024

def UploadMaxParts : Int := 500

def UploadSessionTtlMs : Int := 24 * 60 * 60 * 1000

def UploadMinFileSizeBytes : Int := 1

def UploadMaxFileSizeBytes : Int := UploadPartSizeBytes * UploadMaxParts

/-! ## Error codes (`utils/error.ts`, as used by the feature code) -/

inductive ErrorCodes where
  | INVALID_INPUT
  | TENDER_NOT_FOUND
  | UPLOAD_CONFLICT
  | SUBMISSION_ALREADY_SUBMITTED
  | SUBMISSION_NOT_FOUND
  | UPLOAD_SESSION_NOT_FOUND
  | UPLOAD_SESSION_STATE_INVALID
  | UPLOAD_SESSION_EXPIRED
  | PARTS_MISMATCH
  | MISSING_REQUIRED_UPLOADS
  | UPLOAD_PROVIDER_UNAVAILABLE
  | UPLOAD_CONFIG_INVALID
  deriving DecidableEq, Repr

/-- Result envelope `{ok:true,data} | {ok:false,errorCode,error}` returned
by every service function in `user.ts` and `r2Multipart.ts`. -/
inductive ServiceResult (α : Type) where
  | ok (data : α)
  | err (errorCode : ErrorCodes) (error : String)
  deriving DecidableEq, Repr

def ServiceResult.isOk {α : Type} : ServiceResult α → Bool
  | .ok _ => true
  | .err _ _ => false

/-! ## Status string constants (`db/schema.ts`) -/

def SubmissionStatuses.DRAFT : String := "draft"

def SubmissionStatuses.SUBMITTED : String := "submitted"

def UploadSessionStatuses.INITIATED : String := "initiated"

def UploadSessionStatuses.COMPLETED : String := "completed"

def UploadSessionStatuses.ABORTED : String := "aborted"

/-! ## Database rows (`db/schema.ts`, migration in `src/unnamed/part_023`) -/

structure TenderRow where
  id : String
  isActive : Bool
  deriving DecidableEq, Repr

structure SubmissionRow where
  id : String
  tenderId : String
  userId : String
  status : String
  submittedAt : Option Int
  isActive : Bool
  updatedAt : Int
  deriving DecidableEq, Repr

structure UploadSessionRow where
  id : String
  tenderId : String
  submissionId : String
  userId : String
  questionId : String
  fileName : String
  fileSizeBytes : Int
  contentType : String
  objectKey : String
  uploadId : String
  partSizeBytes : Int
  totalParts : Int
  expiresAt : Int
  status : String
  completedAt : Option Int
  isActive : Bool
  updatedAt : Int
  deriving DecidableEq, Repr

structure UploadedFileRow where
  id : String
  tenderId : String
  submissionId : String
  userId : String
  questionId : String
  uploadSessionId : String
  objectKey : String
  fileName : String
  fileSizeBytes : Int
  contentType : String
  etag : String
  uploadedAt : Int
  isActive : Bool
  updatedAt : Int
  deriving DecidableEq, Repr

/-- Database state: the four tables the upload subsystem touches. -/
structure Db where
  tenders : List TenderRow
  submissions : List SubmissionRow
  sessions : List UploadSessionRow
  files : List UploadedFileRow
  deriving DecidableEq, Repr

/-! ## Lookup helpers (`user.ts`) -/

/-- Embeds `getActiveTender` (user.ts:261): first tender with matching id
and `isActive = true`. -/
def getActiveTender (db : Db) (tenderId : String) : Option TenderRow :=
  db.tenders.find? (fun t => t.id == tenderId && t.isActive)

/-- Embeds the select in `getUploadSession` (user.ts:429): first session
matching id, tenderId, userId with `isActive = true`. -/
def getUploadSession (db : Db) (uploadSessionId tenderId userId : String) :
    Option UploadSessionRow :=
  db.sessions.find? (fun s =>
    s.id == uploadSessionId && s.tenderId == tenderId && s.userId == userId && s.isActive)

/-- Embeds `getSubmission` (user.ts:521): first submission with matching id
and `isActive = true`. -/
def getSubmission (db : Db) (submissionId : String) : Option SubmissionRow :=
  db.submissions.find? (fun s => s.id == submissionId && s.isActive)

/-- Embeds the select inside `getOrCreateSubmission` (user.ts:284): first
active submission for `(tenderId, userId)`. -/
def findSubmissionFor (db : Db) (tenderId userId : String) : Option SubmissionRow :=
  db.submissions.find? (fun s => s.tenderId == tenderId && s.userId == userId && s.isActive)

/-- Embeds `getOrCreateSubmission` (user.ts:277): reuse the active
submission for the pair, else insert a fresh draft row.  The
`created.length === 0` conflict branch cannot occur for a list-append
insert and is omitted. -/
def getOrCreateSubmission (db : Db) (tenderId userId freshSubmissionId : String)
    (now : Int) : Db × SubmissionRow :=
  match findSubmissionFor db tenderId userId with
  | some s => (db, s)
  | none =>
      let created : SubmissionRow :=
        { id := freshSubmissionId, tenderId := tenderId, userId := userId,
          status := SubmissionStatuses.DRAFT, submittedAt := none, isActive := true,
          updatedAt := now }
      ({ db with submissions := db.submissions ++ [created] }, created)

/-! ## Initiate-input validation (`user.ts`) -/

/-- Embeds `isValidQuestionId` (user.ts:240): membership in the fixed
question id list. -/
def isValidQuestionId (questionId : String) : Bool :=
  UploadQuestionIds.contains questionId

/-- Characters kept by the filename sanitizer (`[^a-zA-Z0-9._-]` is
replaced by an underscore). -/
def isAllowedFileNameChar (c : Char) : Bool :=
  (('a' ≤ c && c ≤ 'z') || ('A' ≤ c && c ≤ 'Z') || ('0' ≤ c && c ≤ '9')
    || c == '.' || c == '_' || c == '-')

/-- Embeds `sanitizeFileName` (user.ts:256): trim, then replace every
disallowed character with an underscore. -/
def sanitizeFileName (fileName : String) : String :=
  String.mk ((jsTrim fileName).toList.map
    (fun c => if isAllowedFileNameChar c then c else '_'))

structure ValidatedInitiateInput where
  questionId : String
  fileName : String
  contentType : String
  totalParts : Int
  deriving DecidableEq, Repr

/-- Embeds `validateInitiateInput` (user.ts:327).  `fileSizeBytes` is the
raw client-supplied JS number, modelled as `Rat`; `Number.isInteger` is
`den = 1`.  The JS size guard is the short-circuit disjunction
`!isInteger || fileSizeBytes < min || fileSizeBytes > max`; whenever the
comparisons are reached the value is an integer equal to `num`, so they
are written on `num` (extensionally identical).
`Math.ceil(fileSizeBytes / UploadPartSizeBytes)` is only computed on
validated integers and the divisor is `2^23`, making the float division
exact; it is `jsCeilDivInt`. -/
def validateInitiateInput (questionId fileName : String) (fileSizeBytes : Rat)
    (contentType : String) : ServiceResult ValidatedInitiateInput :=
  if ¬ isValidQuestionId questionId then
    .err .INVALID_INPUT "Invalid questionId"
  else
    let normalizedFileName := sanitizeFileName fileName
    if normalizedFileName.length = 0 ∨ normalizedFileName.length > 255 then
      .err .INVALID_INPUT "Invalid fileName"
    else
      let normalizedContentType := jsTrim contentType
      if normalizedContentType.length = 0 ∨ normalizedContentType.length > 255 then
        .err .INVALID_INPUT "Invalid contentType"
      else if ¬ fileSizeBytes.den = 1 ∨ fileSizeBytes.num < UploadMinFileSizeBytes
          ∨ fileSizeBytes.num > UploadMaxFileSizeBytes then
        .err .INVALID_INPUT "Invalid fileSizeBytes"
      else
        let totalParts : Int := jsCeilDivInt fileSizeBytes.num UploadPartSizeBytes
        if totalParts ≤ 0 ∨ totalParts > UploadMaxParts then
          .err .INVALID_INPUT
            ("totalParts must be between 1 and " ++ toString UploadMaxParts)
        else
          .ok { questionId := questionId, fileName := normalizedFileName,
                contentType := normalizedContentType, totalParts := totalParts }

/-! ## initiateUpload (`user.ts`) -/

structure PresignedPart where
  partNumber : Int
  url : String
  expiresAt : String
  deriving DecidableEq, Repr

structure InitiateUploadArgs where
  userId : String
  tenderId : String
  questionId : String
  fileName : String
  fileSizeBytes : Rat
  contentType : String
  /-- Date.now() at the time of the call. -/
  now : Int
  /-- Fresh id should `getOrCreateSubmission` need to insert. -/
  freshSubmissionId : String
  /-- Output of `buildObjectKey` (uses a timestamp and a random UUID, so
  modelled as an oracle input). -/
  objectKey : String
  /-- Awaited outcome of `createMultipartUploadWithPresignedParts`
  (uploadId and presigned part urls on success). -/
  providerCreate : ServiceResult (String × List PresignedPart)
  /-- Fresh id for the inserted upload-session row. -/
  freshSessionId : String

structure InitiateUploadData where
  uploadSessionId : String
  uploadId : String
  objectKey : String
  partSizeBytes : Int
  totalParts : Int
  expiresAt : Int
  parts : List PresignedPart
  deriving DecidableEq, Repr

/-- Embeds `initiateUpload` (user.ts:556).  The session insert always
returns its row here, so the `sessions.length === 0` compensation branch
(abort provider upload, return UPLOAD_CONFLICT) is unrepresentable and
omitted. -/
def initiateUpload (db : Db) (a : InitiateUploadArgs) :
    Db × ServiceResult InitiateUploadData :=
  match validateInitiateInput a.questionId a.fileName a.fileSizeBytes a.contentType with
  | .err c e => (db, .err c e)
  | .ok validation =>
    match getActiveTender db a.tenderId with
    | none => (db, .err .TENDER_NOT_FOUND "Tender not found")
    | some tender =>
      let submissionResult := getOrCreateSubmission db a.tenderId a.userId
        a.freshSubmissionId a.now
      let db1 := submissionResult.1
      let submission := submissionResult.2
      if submission.status = SubmissionStatuses.SUBMITTED then
        (db1, .err .SUBMISSION_ALREADY_SUBMITTED "Submission already submitted")
      else
        match a.providerCreate with
        | .err c e => (db1, .err c e)
        | .ok (uploadId, parts) =>
          let expiresAt := a.now + UploadSessionTtlMs
          let session : UploadSessionRow :=
            { id := a.freshSessionId, tenderId := tender.id,
              submissionId := submission.id, userId := a.userId,
              questionId := validation.questionId, fileName := validation.fileName,
              fileSizeBytes := a.fileSizeBytes.num,
              contentType := validation.contentType, objectKey := a.objectKey,
              uploadId := uploadId, partSizeBytes := UploadPartSizeBytes,
              totalParts := validation.totalParts, expiresAt := expiresAt,
              status := UploadSessionStatuses.INITIATED, completedAt := none,
              isActive := true, updatedAt := a.now }
          ({ db1 with sessions := db1.sessions ++ [session] },
            .ok { uploadSessionId := a.freshSessionId, uploadId := uploadId,
                  objectKey := a.objectKey, partSizeBytes := UploadPartSizeBytes,
                  totalParts := validation.totalParts, expiresAt := expiresAt,
                  parts := parts })

/-! ## Completed-parts validation (`user.ts`) -/

structure CompletedUploadPart where
  partNumber : Int
  etag : String
  deriving DecidableEq, Repr

/-- Embeds the per-part loop of `validateCompletedParts` (user.ts:485):
checks part number bounds (`Number.isInteger` holds trivially on `Int`),
non-empty trimmed etag, no duplicate part number; accumulates the
normalized parts in order. -/
def validatePartsLoop : List CompletedUploadPart → List Int →
    List CompletedUploadPart → ServiceResult (List CompletedUploadPart)
  | [], _, acc => .ok acc
  | part :: rest, seenPartNumbers, acc =>
    let partNumber := part.partNumber
    let etag := jsTrim part.etag
    if partNumber ≤ 0 ∨ partNumber > UploadMaxParts then
      .err .INVALID_INPUT "Invalid partNumber"
    else if etag.length = 0 then
      .err .INVALID_INPUT "Invalid etag"
    else if seenPartNumbers.contains partNumber then
      .err .PARTS_MISMATCH "Duplicate partNumber received"
    else
      validatePartsLoop rest (partNumber :: seenPartNumbers)
        (acc ++ [{ partNumber := partNumber, etag := etag }])

/-- Stable insertion of a part into a list sorted by ascending part
number (inserted after equal keys, as a stable JS `Array.sort` would). -/
def insertPartSorted (p : CompletedUploadPart) :
    List CompletedUploadPart → List CompletedUploadPart
  | [] => [p]
  | q :: rest =>
    if p.partNumber < q.partNumber then p :: q :: rest else q :: insertPartSorted p rest

/-- Embeds `normalizedParts.sort((l, r) => l.partNumber - r.partNumber)`
(user.ts:517): a stable ascending sort by part number. -/
def sortPartsByNumber : List CompletedUploadPart → List CompletedUploadPart
  | [] => []
  | p :: rest => insertPartSorted p (sortPartsByNumber rest)

/-- Embeds `validateCompletedParts` (user.ts:470). -/
def validateCompletedParts (parts : List CompletedUploadPart) :
    ServiceResult (List CompletedUploadPart) :=
  if parts.length = 0 ∨ (parts.length : Int) > UploadMaxParts then
    .err .INVALID_INPUT
      ("parts must contain between 1 and " ++ toString UploadMaxParts ++ " items")
  else
    match validatePartsLoop parts [] [] with
    | .ok normalizedParts => .ok (sortPartsByNumber normalizedParts)
    | .err c e => .err c e

/-! ## completeUpload (`user.ts`) -/

/-- Embeds the positional loop in `completeUpload` (user.ts:775): for each
`partNumber` in `1..totalParts` the sorted parts list must hold, at index
`partNumber - 1`, a part with exactly that part number. -/
def partsMatchPositions (sortedParts : List CompletedUploadPart)
    (totalParts : Int) : Bool :=
  (List.range totalParts.toNat).all (fun i =>
    match sortedParts.get? i with
    | some receivedPart => receivedPart.partNumber == (i : Int) + 1
    | none => false)

/-- Specification-side list of the part numbers a complete payload must
carry: exactly `1, 2, ..., totalParts` (empty for a non-positive count). -/
def expectedPartNumbers (totalParts : Int) : List Int :=
  (List.range totalParts.toNat).map (fun (i : Nat) => (i : Int) + 1)

/-- Embeds the `update uploaded_file set is_active = false` statement in
`completeUpload` (user.ts:798): deactivate every active file of the
session's `(submissionId, questionId)` pair. -/
def deactivatePriorFiles (files : List UploadedFileRow)
    (submissionId questionId : String) (now : Int) : List UploadedFileRow :=
  files.map (fun f =>
    if f.submissionId == submissionId && f.questionId == questionId && f.isActive then
      { f with isActive := false, updatedAt := now }
    else f)

/-- Embeds the `update upload_session set status = completed` statement in
`completeUpload` (user.ts:848). -/
def markSessionCompleted (sessions : List UploadSessionRow) (sessionId : String)
    (now : Int) : List UploadSessionRow :=
  sessions.map (fun s =>
    if s.id == sessionId then
      { s with status := UploadSessionStatuses.COMPLETED,
               completedAt := some now, updatedAt := now }
    else s)

structure CompleteUploadArgs where
  userId : String
  tenderId : String
  uploadSessionId : String
  parts : List CompletedUploadPart
  /-- Date.now() at the time of the call. -/
  now : Int
  /-- Awaited outcome of `completeMultipartUpload` (the object etag on
  success). -/
  providerComplete : ServiceResult String
  /-- Fresh id for the inserted uploaded-file row. -/
  freshFileId : String

structure CompleteUploadData where
  fileId : String
  tenderId : String
  questionId : String
  fileName : String
  contentType : String
  fileSizeBytes : Int
  uploadedAt : Int
  deriving DecidableEq, Repr

/-- Embeds `completeUpload` (user.ts:680).  The uploaded-file insert
always returns its row here, so the `insertedFiles.length === 0` branch is
unrepresentable and omitted. -/
def completeUpload (db : Db) (a : CompleteUploadArgs) :
    Db × ServiceResult CompleteUploadData :=
  match validateCompletedParts a.parts with
  | .err c e => (db, .err c e)
  | .ok validatedParts =>
    match getActiveTender db a.tenderId with
    | none => (db, .err .TENDER_NOT_FOUND "Tender not found")
    | some tender =>
      match getUploadSession db a.uploadSessionId tender.id a.userId with
      | none => (db, .err .UPLOAD_SESSION_NOT_FOUND "Upload session not found")
      | some uploadSession =>
        if uploadSession.status ≠ UploadSessionStatuses.INITIATED then
          (db, .err .UPLOAD_SESSION_STATE_INVALID
            "Upload session is not in initiated state")
        else if uploadSession.expiresAt < a.now then
          (db, .err .UPLOAD_SESSION_EXPIRED "Upload session expired")
        else
          match getSubmission db uploadSession.submissionId with
          | none => (db, .err .SUBMISSION_NOT_FOUND "Submission not found")
          | some submission =>
            if submission.status = SubmissionStatuses.SUBMITTED then
              (db, .err .SUBMISSION_ALREADY_SUBMITTED "Submission already submitted")
            else if (validatedParts.length : Int) ≠ uploadSession.totalParts then
              (db, .err .PARTS_MISMATCH
                "Provided parts count does not match upload session")
            else if ¬ partsMatchPositions validatedParts uploadSession.totalParts then
              (db, .err .PARTS_MISMATCH "Missing parts in complete payload")
            else
              match a.providerComplete with
              | .err c e => (db, .err c e)
              | .ok etag =>
                let db1 := { db with files :=
                  (deactivatePriorFiles db.files uploadSession.submissionId
                    uploadSession.questionId a.now) }
                if ¬ isValidQuestionId uploadSession.questionId then
                  (db1, .err .INVALID_INPUT "Upload session has invalid questionId")
                else
                  let newFile : UploadedFileRow :=
                    { id := a.freshFileId, tenderId := tender.id,
                      submissionId := uploadSession.submissionId,
                      userId := a.userId, questionId := uploadSession.questionId,
                      uploadSessionId := uploadSession.id,
                      objectKey := uploadSession.objectKey,
                      fileName := uploadSession.fileName,
                      fileSizeBytes := uploadSession.fileSizeBytes,
                      contentType := uploadSession.contentType, etag := etag,
                      uploadedAt := a.now, isActive := true, updatedAt := a.now }
                  let db2 := { db1 with files := db1.files ++ [newFile] }
                  let db3 := { db2 with sessions :=
                    markSessionCompleted db2.sessions uploadSession.id a.now }
                  (db3, .ok { fileId := a.freshFileId, tenderId := tender.id,
                              questionId := uploadSession.questionId,
                              fileName := uploadSession.fileName,
                              contentType := uploadSession.contentType,
                              fileSizeBytes := uploadSession.fileSizeBytes,
                              uploadedAt := a.now })

/-! ## abortUpload (`user.ts`) -/

structure AbortUploadArgs where
  userId : String
  tenderId : String
  uploadSessionId : String
  /-- Date.now() at the time of the call. -/
  now : Int
  /-- Awaited outcome of `abortMultipartUpload`. -/
  providerAbort : ServiceResult Unit

/-- Embeds `abortUpload` (user.ts:871): validate, look up session and
submission, delegate the provider-side abort, and only then mark the
session row `aborted`. -/
def abortUpload (db : Db) (a : AbortUploadArgs) : Db × ServiceResult Unit :=
  let trimmedUploadSessionId := jsTrim a.uploadSessionId
  if trimmedUploadSessionId.length = 0 then
    (db, .err .INVALID_INPUT "Invalid uploadSessionId")
  else
    match getActiveTender db a.tenderId with
    | none => (db, .err .TENDER_NOT_FOUND "Tender not found")
    | some tender =>
      match getUploadSession db trimmedUploadSessionId tender.id a.userId with
      | none => (db, .err .UPLOAD_SESSION_NOT_FOUND "Upload session not found")
      | some uploadSession =>
        if uploadSession.status ≠ UploadSessionStatuses.INITIATED then
          (db, .err .UPLOAD_SESSION_STATE_INVALID
            "Upload session cannot be aborted in current state")
        else
          match getSubmission db uploadSession.submissionId with
          | none => (db, .err .SUBMISSION_NOT_FOUND "Submission not found")
          | some submission =>
            if submission.status = SubmissionStatuses.SUBMITTED then
              (db, .err .SUBMISSION_ALREADY_SUBMITTED "Submission already submitted")
            else
              match a.providerAbort with
              | .err c e => (db, .err c e)
              | .ok _ =>
                ({ db with sessions := db.sessions.map (fun s =>
                    if s.id == uploadSession.id then
                      { s with status := UploadSessionStatuses.ABORTED,
                               updatedAt := a.now }
                    else s) },
                  .ok ())

/-! ## submitTender (`user.ts`) -/

/-- Active uploaded files of one `(submissionId, questionId)` pair (the
rows the partial unique index `uploaded_file_submission_id_question_id_key`
ranges over). -/
def activeFilesFor (db : Db) (submissionId questionId : String) :
    List UploadedFileRow :=
  db.files.filter (fun f =>
    f.isActive && f.submissionId == submissionId && f.questionId == questionId)

/-- Whether some active uploaded file exists for the pair (membership in
the `presentQuestionIds` set built in `submitTender`, user.ts:1108). -/
def hasActiveUploadFor (db : Db) (submissionId questionId : String) : Bool :=
  db.files.any (fun f =>
    f.isActive && f.submissionId == submissionId && f.questionId == questionId)

/-- Embeds the missing-id loop of `submitTender` (user.ts:1113): required
question ids, in order, without an active uploaded file. -/
def missingRequiredQuestionIds (db : Db) (submissionId : String) : List String :=
  RequiredUploadQuestionIds.filter
    (fun q => ! hasActiveUploadFor db submissionId q)

structure SubmitTenderArgs where
  userId : String
  tenderId : String
  /-- Date.now() at the time of the call. -/
  now : Int
  /-- Fresh id should `getOrCreateSubmission` need to insert. -/
  freshSubmissionId : String

structure SubmitTenderData where
  tenderId : String
  status : String
  submittedAt : Int
  deriving DecidableEq, Repr

/-- Embeds `submitTender` (user.ts:1055).  The submission update operates
on a row that exists (found or just created), so the
`updatedSubmissions.length === 0 || submittedAt === null` branch is
unrepresentable and omitted. -/
def submitTender (db : Db) (a : SubmitTenderArgs) :
    Db × ServiceResult SubmitTenderData :=
  match getActiveTender db a.tenderId with
  | none => (db, .err .TENDER_NOT_FOUND "Tender not found")
  | some tender =>
    let submissionResult := getOrCreateSubmission db tender.id a.userId
      a.freshSubmissionId a.now
    let db1 := submissionResult.1
    let submission := submissionResult.2
    if submission.status = SubmissionStatuses.SUBMITTED then
      (db1, .err .SUBMISSION_ALREADY_SUBMITTED "Submission already submitted")
    else
      let missingQuestionIds := missingRequiredQuestionIds db1 submission.id
      if missingQuestionIds.length > 0 then
        (db1, .err .MISSING_REQUIRED_UPLOADS
          ("Missing required uploads: " ++ String.intercalate ", " missingQuestionIds))
      else
        ({ db1 with submissions := db1.submissions.map (fun s =>
            if s.id == submission.id then
              { s with status := SubmissionStatuses.SUBMITTED,
                       submittedAt := some a.now, updatedAt := a.now }
            else s) },
          .ok { tenderId := tender.id, status := SubmissionStatuses.SUBMITTED,
                submittedAt := a.now })

/-! ## Storage adapter error model (`r2Multipart.ts`) -/

/-- Embeds `StorageErrorInput` (r2Multipart.ts:108): the value caught from
a provider call.  An `Error` and a plain error-like object both carry the
same fields and are merged into `like`; `$metadata` is inlined; `undefinedVal` is
JS `undefined` (the type ends in `| undefined` and `cause` is optional). -/
inductive StorageErrorInput where
  | like (name code message : Option String) (httpStatusCode : Option Int)
      (requestId : Option String) (cause : StorageErrorInput)
  | str (s : String)
  | num (n : Int)
  | boolVal (b : Bool)
  | nullVal
  | undefinedVal
  deriving DecidableEq, Repr

/-- Embeds `StorageErrorLike` (r2Multipart.ts:100); the optional `cause`
field uses `StorageErrorInput.undefinedVal` for absence. -/
structure StorageErrorLike where
  name : Option String
  code : Option String
  message : Option String
  httpStatusCode : Option Int
  requestId : Option String
  cause : StorageErrorInput
  deriving DecidableEq, Repr

/-- Embeds `normalizeStorageError` (r2Multipart.ts:198).  `String(n)` /
`String(b)` are rendered with `toString`. -/
def normalizeStorageError : StorageErrorInput → StorageErrorLike
  | .like name code message httpStatusCode requestId cause =>
      { name := name, code := code, message := message,
        httpStatusCode := httpStatusCode, requestId := requestId, cause := cause }
  | .str s =>
      { name := none, code := none, message := some s, httpStatusCode := none,
        requestId := none, cause := .undefinedVal }
  | .num n =>
      { name := none, code := none, message := some (toString n),
        httpStatusCode := none, requestId := none, cause := .undefinedVal }
  | .boolVal b =>
      { name := none, code := none,
        message := some (if b then "true" else "false"), httpStatusCode := none,
        requestId := none, cause := .undefinedVal }
  | .nullVal =>
      { name := none, code := none, message := none, httpStatusCode := none,
        requestId := none, cause := .undefinedVal }
  | .undefinedVal =>
      { name := none, code := none, message := none, httpStatusCode := none,
        requestId := none, cause := .undefinedVal }

/-- JS truthiness of a caught cause value (`if (!cause) return null`). -/
def causeIsTruthy : StorageErrorInput → Bool
  | .like _ _ _ _ _ _ => true
  | .str s => s.length ≠ 0
  | .num n => n ≠ 0
  | .boolVal b => b
  | .nullVal => false
  | .undefinedVal => false

/-- Embeds `getNestedCauseCode` (r2Multipart.ts:229). -/
def getNestedCauseCode (error : StorageErrorLike) : Option String :=
  let cause := error.cause
  if ¬ causeIsTruthy cause then none
  else
    let nested := normalizeStorageError cause
    let fromCode := (nested.code.map jsTrim).getD ""
    if fromCode.length > 0 then some fromCode
    else
      let fromName := (nested.name.map jsTrim).getD ""
      if fromName.length > 0 then some fromName else none

/-- Embeds `getProviderCauseCode` (r2Multipart.ts:249). -/
def getProviderCauseCode (error : StorageErrorLike) : String :=
  let fromCode := (error.code.map jsTrim).getD ""
  if fromCode.length > 0 then fromCode
  else
    let fromName := (error.name.map jsTrim).getD ""
    if fromName.length > 0 then fromName
    else
      match getNestedCauseCode error with
      | some nestedCauseCode => nestedCauseCode
      | none =>
        let normalizedMessage := jsToLower (error.message.getD "")
        if stringIncludes normalizedMessage "handshake_failure"
            || stringIncludes normalizedMessage "sslv3_alert_handshake_failure" then
          "TLS_HANDSHAKE_FAILURE"
        else if stringIncludes normalizedMessage "domparser" then
          "DOM_PARSER_UNAVAILABLE"
        else if stringIncludes normalizedMessage "timeout" then
          "TimeoutError"
        else if stringIncludes normalizedMessage "econnreset" then
          "ECONNRESET"
        else
          "UNKNOWN_PROVIDER_ERROR"

def RetryableProviderCauseCodes : List String :=
  ["NetworkingError", "TimeoutError", "RequestTimeout", "RequestTimeoutException",
   "ECONNRESET", "ETIMEDOUT", "ENOTFOUND", "EAI_AGAIN", "ECONNREFUSED",
   "UND_ERR_CONNECT_TIMEOUT", "TLS_HANDSHAKE_FAILURE"]

def NonRetryableProviderCauseCodes : List String :=
  ["DOM_PARSER_UNAVAILABLE"]

/-- Embeds `isRetryableProviderError` (r2Multipart.ts:285). -/
def isRetryableProviderError (causeCode : String) (providerStatus : Option Int)
    (message : String) : Bool :=
  if NonRetryableProviderCauseCodes.contains causeCode then false
  else if providerStatus == some 429
      || (providerStatus.isSome && (providerStatus.getD 0) ≥ 500) then true
  else if RetryableProviderCauseCodes.contains causeCode then true
  else
    let lower := jsToLower message
    stringIncludes lower "timed out" || stringIncludes lower "timeout"
      || stringIncludes lower "network" || stringIncludes lower "connection reset"
      || stringIncludes lower "temporarily unavailable"

/-- Embeds `sanitizeStorageErrorMessage` (r2Multipart.ts:156). -/
def sanitizeStorageErrorMessage (message : String) : String :=
  let lower := jsToLower message
  if stringIncludes lower "handshake_failure"
      || stringIncludes lower "sslv3_alert_handshake_failure"
      || stringIncludes lower "openssl_internal"
      || stringIncludes lower "certificate"
      || stringIncludes lower "domparser"
      || stringIncludes lower "deserialization error"
      || stringIncludes lower "inspect the hidden field"
      || stringIncludes lower "$response" then
    "Upload service is temporarily unavailable. Please retry."
  else
    message

/-- Fallthrough of `getReadableStorageError` over the nested cause: a
non-empty string cause, an `Error` cause with non-empty message, or an
object cause whose normalization has a non-empty message. -/
def getReadableStorageErrorFromCause : StorageErrorInput → String
  | .str s =>
    if (jsTrim s).length > 0 then sanitizeStorageErrorMessage s
    else "Failed to communicate with R2"
  | .like name code message st rid cause =>
    match (normalizeStorageError (.like name code message st rid cause)).message with
    | some nestedMessage =>
      if (jsTrim nestedMessage).length > 0 then sanitizeStorageErrorMessage nestedMessage
      else "Failed to communicate with R2"
    | none => "Failed to communicate with R2"
  | _ => "Failed to communicate with R2"

/-- Embeds `getReadableStorageError` (r2Multipart.ts:324). -/
def getReadableStorageError (error : StorageErrorLike) : String :=
  match error.message with
  | some message =>
    if (jsTrim message).length > 0 then sanitizeStorageErrorMessage message
    else getReadableStorageErrorFromCause error.cause
  | none => getReadableStorageErrorFromCause error.cause

/-- Classification of a caught provider error exactly as
`buildProviderDebugInfo` (r2Multipart.ts:349) computes `retryable`. -/
def errorIsRetryable (error : StorageErrorInput) : Bool :=
  let normalizedError := normalizeStorageError error
  let message := normalizedError.message.getD "Failed to communicate with R2"
  let causeCode := getProviderCauseCode normalizedError
  let providerStatus := normalizedError.httpStatusCode
  isRetryableProviderError causeCode providerStatus message

def ProviderRetryDelaysMs : List Int := [250, 750]

def ProviderMaxAttempts : Nat := ProviderRetryDelaysMs.length + 1

/-- Embeds `getRetryDelayMs` (r2Multipart.ts:387). -/
def getRetryDelayMs (attemptCount : Nat) : Int :=
  if attemptCount ≤ 1 then ProviderRetryDelaysMs.getD 0 0
  else
    let retryIndex := attemptCount - 1
    if retryIndex ≥ ProviderRetryDelaysMs.length then
      ProviderRetryDelaysMs.getD (ProviderRetryDelaysMs.length - 1) 0
    else
      ProviderRetryDelaysMs.getD retryIndex 0

structure ProviderRunOutcome (T : Type) where
  result : ServiceResult T
  attempts : Nat
  delaysWaited : List Int
  deriving Repr

/-- Embeds the `while (attemptCount < ProviderMaxAttempts)` loop of
`runR2ProviderOperation` (r2Multipart.ts:406).  `run k` is the awaited
outcome of attempt `k` (1-based).  `fuel` is `ProviderMaxAttempts -
attemptCount`, so the fuel-exhausted base case is exactly the code's
post-loop fallback return.  `delaysWaited` records each `waitForRetry`
duration. -/
def runR2Loop {T : Type} (run : Nat → Except StorageErrorInput T) :
    Nat → Nat → List Int → ProviderRunOutcome T
  | 0, attemptCount, delaysWaited =>
    { result := .err .UPLOAD_PROVIDER_UNAVAILABLE
        "Upload service is temporarily unavailable. Please retry.",
      attempts := attemptCount, delaysWaited := delaysWaited }
  | fuel + 1, attemptCount, delaysWaited =>
    let attemptCount1 := attemptCount + 1
    match run attemptCount1 with
    | .ok data => { result := .ok data, attempts := attemptCount1,
                    delaysWaited := delaysWaited }
    | .error normalizedError =>
      let retryable := errorIsRetryable normalizedError
      let shouldRetry := retryable && attemptCount1 < ProviderMaxAttempts
      if shouldRetry then
        runR2Loop run fuel attemptCount1
          (delaysWaited ++ [getRetryDelayMs attemptCount1])
      else
        { result := .err .UPLOAD_PROVIDER_UNAVAILABLE
            (getReadableStorageError (normalizeStorageError normalizedError)),
          attempts := attemptCount1, delaysWaited := delaysWaited }

/-- Embeds `runR2ProviderOperation` (r2Multipart.ts:406), entered with
`attemptCount = 0`. -/
def runR2ProviderOperation {T : Type}
    (run : Nat → Except StorageErrorInput T) : ProviderRunOutcome T :=
  runR2Loop run ProviderMaxAttempts 0 []

/-! ## Persisted-form-state saver (`useFormStatePersistence.ts`) -/

/-- State of the save machinery of `useFormStatePersistence`:
`inFlight` counts saves currently awaiting their fetch (`isSavingRef`
is the boolean `inFlight > 0`), `pending` is `pendingStateRef`. -/
structure SaverState (σ : Type) where
  inFlight : Nat
  pending : Option σ
  deriving DecidableEq, Repr

/-- Events hitting the saver: `mutate s` is a (debounced)
`saveOrQueueState` invocation observing snapshot state `s`
(useFormStatePersistence.ts:76); `finish` is the `finally` block of an
in-flight `saveStateInternal` resolving (useFormStatePersistence.ts:60). -/
inductive SaverEvent (σ : Type) where
  | mutate (s : σ)
  | finish
  deriving DecidableEq, Repr

/-- One transition of the saver; the emitted list holds the state carried
by each save request started during the event.  `mutate`: if a save is in
flight the latest state overwrites the single pending slot, else a save
starts.  `finish`: the finishing save decrements, then the pending slot
(if filled) immediately starts the follow-up save — both inside one
synchronous `finally` block, hence one transition. -/
def saverStep {σ : Type} (st : SaverState σ) : SaverEvent σ → SaverState σ × List σ
  | .mutate s =>
    if st.inFlight > 0 then ({ st with pending := some s }, [])
    else ({ inFlight := st.inFlight + 1, pending := st.pending }, [s])
  | .finish =>
    match st.pending with
    | some pendingState =>
      ({ inFlight := st.inFlight, pending := none }, [pendingState])
    | none => ({ inFlight := st.inFlight - 1, pending := none }, [])

/-- Run a sequence of saver events, collecting every started save. -/
def saverRun {σ : Type} (st : SaverState σ) :
    List (SaverEvent σ) → SaverState σ × List σ
  | [] => (st, [])
  | event :: rest =>
    let step1 := saverStep st event
    let step2 := saverRun step1.1 rest
    (step2.1, step1.2 ++ step2.2)

/-! ## Client upload item model (`src/unnamed/part_014`) -/

structure UploadItem where
  id : String
  questionId : String
  fileName : String
  sizeBytes : Int
  status : String
  progressPct : Int
  deriving DecidableEq, Repr

/-! ### Exact binary64 model for the client progress arithmetic

`toUploadProgress` (part_014:408) computes
`Math.floor((completedParts / totalParts) * 98)` in IEEE-754 binary64
("double") arithmetic: the division and the multiplication each round
their exact result to 53 significant bits, round-to-nearest with ties to
even.  The model below implements that rounding exactly with integer
arithmetic.  A finite double is represented unnormalised as a pair
`(m, e) : Int × Int` of value `m * 2 ^ e`.  The exponent is unbounded,
which coincides with binary64 whenever no overflow or underflow occurs —
true for every intermediate value of this expression on the program's
part counts (`totalParts ≤ UploadMaxParts`). -/

/-- Bit length of a natural number, by fuel recursion so that it reduces
in the kernel; correct whenever `n < 2 ^ fuel`. -/
def bitlen : Nat → Nat → Nat
  | 0, _ => 0
  | fuel + 1, n => if n = 0 then 0 else bitlen fuel (n / 2) + 1

/-- Whether `a / b ≥ 2 ^ j`, for positive naturals `a`, `b` and `j : ℤ`. -/
def ratGePow2 (a b : Nat) (j : Int) : Bool :=
  if 0 ≤ j then decide (b * 2 ^ j.toNat ≤ a) else decide (b ≤ a * 2 ^ (-j).toNat)

/-- `⌊log₂ (a / b)⌋` for positive naturals below `2 ^ 64` (used to find
the binary64 exponent of a quotient). -/
def floorLog2 (a b : Nat) : Int :=
  let k0 : Int := (bitlen 64 a : Int) - (bitlen 64 b : Int)
  if ratGePow2 a b k0 then k0 else k0 - 1

/-- Round `num / den` to the nearest integer, ties to even. -/
def rne (num den : Nat) : Nat :=
  let w := num / den
  let r := num % den
  if 2 * r < den then w
  else if den < 2 * r then w + 1
  else if w % 2 = 0 then w else w + 1

/-- Round the positive rational `a / b` to 53 significant bits
(round-to-nearest, ties to even): the result `(m, e)` represents the
nearest double `m * 2 ^ e`. -/
def roundRatPos (a b : Nat) : Nat × Int :=
  let k := floorLog2 a b
  let s : Int := 52 - k
  let m := if 0 ≤ s then rne (a * 2 ^ s.toNat) b else rne a (b * 2 ^ (-s).toNat)
  (m, k - 52)

/-- Binary64 division `c / t` of two exact integers (`t ≠ 0`; the caller
guards `totalParts ≥ 1` before dividing). -/
def jsDivDouble (c t : Int) : Int × Int :=
  if c = 0 then (0, 0)
  else
    let p := roundRatPos c.natAbs t.natAbs
    (if c < 0 ↔ t < 0 then (p.1 : Int) else -(p.1 : Int), p.2)

/-- Binary64 multiplication of a double `(m, e)` by the exact constant
`98`: the product `m * 98 * 2 ^ e` is exact in integers and is re-rounded
to 53 significant bits when it no longer fits. -/
def jsMul98Double (p : Int × Int) : Int × Int :=
  let m98 := p.1 * 98
  if m98 = 0 then (0, 0)
  else
    let len := bitlen 64 m98.natAbs
    if len ≤ 53 then (m98, p.2)
    else
      let m := rne m98.natAbs (2 ^ (len - 53))
      (if m98 < 0 then -(m : Int) else (m : Int), p.2 + ((len - 53 : Nat) : Int))

/-- `Math.floor` on a double `(m, e)`: exact. -/
def jsFloorDouble (p : Int × Int) : Int :=
  if 0 ≤ p.2 then p.1 * 2 ^ p.2.toNat else p.1.fdiv (2 ^ (-p.2).toNat)

/-- Exact rational value of the double `(m, e)` (proof-side valuation). -/
def dval (p : Int × Int) : ℚ :=
  (p.1 : ℚ) * 2 ^ p.2

/-- Embeds `toUploadProgress` (part_014:408).  The JS expression
`Math.floor((completedParts / totalParts) * 98)` is evaluated in binary64:
both the division and the multiplication round to 53 significant bits,
which is observable — at `completedParts = 1, totalParts = 49` the double
product is `1.9999999999999998`, so the floor is `1` where exact rational
arithmetic gives `2`. -/
def toUploadProgress (completedParts totalParts : Int) : Int :=
  if totalParts ≤ 0 then 1
  else
    let scaled :=
      jsFloorDouble (jsMul98Double (jsDivDouble completedParts totalParts))
    min 99 (max 1 (1 + scaled))

/-- Progress values assigned to a question slot during one multipart
`handleStartUpload` run (part_014:918-1231), in order: `1` from
`createUploadingItem`, `1` after initiate succeeds, one
`toUploadProgress` per completed part (`onPartUploaded`), then — only if
every part uploaded — `99` before the complete call and `100` only when
`requestCompleteUpload` returned ok (the error branch keeps the previous
percentage). -/
def multipartProgressTrace (totalParts partsUploaded : Nat)
    (completeOk : Bool) : List Int :=
  [1, 1]
    ++ (List.range partsUploaded).map
        (fun k => toUploadProgress ((k : Int) + 1) (totalParts : Int))
    ++ (if partsUploaded = totalParts then
          99 :: (if completeOk then [100] else [])
        else [])

/-! ## Loader reconciliation (`src/unnamed/part_014`, loader) -/

/-- Record keyed by the five question ids (the TS objects are
`Record<UploadQuestionId, ...>`). -/
structure UploadSlotMap (α : Type) where
  q1 : Option α
  q2 : Option α
  q3 : Option α
  q4 : Option α
  q5 : Option α
  deriving DecidableEq, Repr

def UploadSlotMap.get {α : Type} (m : UploadSlotMap α) : String → Option α
  | "q1" => m.q1
  | "q2" => m.q2
  | "q3" => m.q3
  | "q4" => m.q4
  | "q5" => m.q5
  | _ => none

/-- Completed-upload descriptor stored in the persisted form state. -/
structure PersistedUpload where
  fileId : String
  fileName : String
  fileSize : Int
  mimeType : String
  completedAt : String
  deriving DecidableEq, Repr

/-- Persisted form state body (`{version:1, singleUploads, multiUploads}`);
the loader reconciliation reads only `singleUploads`. -/
structure PersistedFormState where
  singleUploads : UploadSlotMap PersistedUpload
  multiUploads : UploadSlotMap (List PersistedUpload)
  deriving DecidableEq, Repr

/-- One iteration of the loader reconciliation loop (part_014:717-728):
a server-reported file with no persisted entry is treated as user-removed
and hidden; otherwise the slot is untouched. -/
def reconcileSlot (uploadedFile : Option UploadItem)
    (inPersistedSingle : Option PersistedUpload) : Option UploadItem :=
  match uploadedFile with
  | none => none
  | some item =>
    match inPersistedSingle with
    | none => none
    | some _ => some item

/-- Embeds the loader reconciliation (part_014:714-728): when no persisted
state exists the server view stands; otherwise each question slot is
reconciled against `persistedState.singleUploads`. -/
def reconcileLoadedUploads (initialUploads : UploadSlotMap UploadItem)
    (persistedState : Option PersistedFormState) : UploadSlotMap UploadItem :=
  match persistedState with
  | none => initialUploads
  | some ps =>
    { q1 := reconcileSlot initialUploads.q1 ps.singleUploads.q1,
      q2 := reconcileSlot initialUploads.q2 ps.singleUploads.q2,
      q3 := reconcileSlot initialUploads.q3 ps.singleUploads.q3,
      q4 := reconcileSlot initialUploads.q4 ps.singleUploads.q4,
      q5 := reconcileSlot initialUploads.q5 ps.singleUploads.q5 }

/-! ## Concrete example fixtures (used to instantiate the theorems) -/

def exTender : TenderRow := { id := "t1", isActive := true }

def exDraftSubmission : SubmissionRow :=
  { id := "sub1", tenderId := "t1", userId := "u1",
    status := SubmissionStatuses.DRAFT, submittedAt := none, isActive := true,
    updatedAt := 0 }

def exSession : UploadSessionRow :=
  { id := "sess1", tenderId := "t1", submissionId := "sub1", userId := "u1",
    questionId := "q1", fileName := "doc.pdf", fileSizeBytes := 10000000,
    contentType := "application/pdf", objectKey := "sub1/q1/doc.pdf",
    uploadId := "up1", partSizeBytes := UploadPartSizeBytes, totalParts := 2,
    expiresAt := 1000, status := UploadSessionStatuses.INITIATED,
    completedAt := none, isActive := true, updatedAt := 0 }

/-- An active uploaded file for the pair `("sub1", "q1")` finalized by an
earlier session. -/
def exPriorFile : UploadedFileRow :=
  { id := "f1", tenderId := "t1", submissionId := "sub1", userId := "u1",
    questionId := "q1", uploadSessionId := "sess0", objectKey := "sub1/q1/old.pdf",
    fileName := "old.pdf", fileSizeBytes := 5, contentType := "application/pdf",
    etag := "e0", uploadedAt := 0, isActive := true, updatedAt := 0 }

def exDb : Db :=
  { tenders := [exTender], submissions := [exDraftSubmission],
    sessions := [exSession], files := [exPriorFile] }

def exCompleteArgs : CompleteUploadArgs :=
  { userId := "u1", tenderId := "t1", uploadSessionId := "sess1",
    parts := [{ partNumber := 2, etag := "e2" }, { partNumber := 1, etag := "e1" }],
    now := 500, providerComplete := .ok "final-etag", freshFileId := "f2" }

/-- Parts payload with a duplicated part number (and a gap). -/
def exBadCompleteArgs : CompleteUploadArgs :=
  { userId := "u1", tenderId := "t1", uploadSessionId := "sess1",
    parts := [{ partNumber := 1, etag := "e1" }, { partNumber := 1, etag := "e1b" }],
    now := 500, providerComplete := .ok "final-etag", freshFileId := "f2" }

def exAbortArgs : AbortUploadArgs :=
  { userId := "u1", tenderId := "t1", uploadSessionId := "sess1", now := 500,
    providerAbort := .ok () }

def exAbortArgsProviderDown : AbortUploadArgs :=
  { userId := "u1", tenderId := "t1", uploadSessionId := "sess1", now := 500,
    providerAbort := .err .UPLOAD_PROVIDER_UNAVAILABLE
      "Upload service is temporarily unavailable. Please retry." }

def exInitiateArgs : InitiateUploadArgs :=
  { userId := "u1", tenderId := "t1", questionId := "q2", fileName := "video.mp4",
    fileSizeBytes := (25165824 : Rat), contentType := "video/mp4", now := 100,
    freshSubmissionId := "sub-new", objectKey := "sub1/q2/video.mp4",
    providerCreate := .ok ("up2",
      [{ partNumber := 1, url := "u-1", expiresAt := "x" },
       { partNumber := 2, url := "u-2", expiresAt := "x" },
       { partNumber := 3, url := "u-3", expiresAt := "x" }]),
    freshSessionId := "sess2" }

def exSubmitArgs : SubmitTenderArgs :=
  { userId := "u1", tenderId := "t1", now := 900, freshSubmissionId := "sub-new" }

/-- A provider error classified non-retryable (`DOM_PARSER_UNAVAILABLE`). -/
def exNonRetryableError : StorageErrorInput :=
  .like none (some "DOM_PARSER_UNAVAILABLE") (some "DOMParser is not available")
    none none .undefinedVal

/-- A provider run whose first attempt fails with a non-retryable error. -/
def exFailNonRetryableRun : Nat → Except StorageErrorInput Unit :=
  fun _ => .error exNonRetryableError

/-! ## Arithmetic bridging lemmas -/

theorem intFdiv_eq_ratFloor (a b : Int) (hb : 0 < b) :
    a.fdiv b = ⌊(a : ℚ) / (b : ℚ)⌋ := by
  obtain ⟨n, rfl⟩ : ∃ n : ℕ, b = (n : ℤ) := ⟨b.toNat, (Int.toNat_of_nonneg hb.le).symm⟩
  rw [Int.fdiv_eq_ediv _ (by positivity)]
  rw [← Rat.floor_intCast_div_natCast a n]
  norm_num

theorem jsCeilDivInt_eq_ratCeil (a b : Int) (hb : 0 < b) :
    jsCeilDivInt a b = ⌈(a : ℚ) / (b : ℚ)⌉ := by
  rw [jsCeilDivInt, intFdiv_eq_ratFloor _ _ hb]
  push_cast
  rw [neg_div, Int.floor_neg, neg_neg]

theorem bitlen_zero (fuel : Nat) : bitlen fuel 0 = 0 := by
  cases fuel <;> simp [bitlen]

theorem bitlen_spec (fuel n : Nat) (hn : 0 < n) (hfuel : n < 2 ^ fuel) :
    2 ^ (bitlen fuel n - 1) ≤ n ∧ n < 2 ^ bitlen fuel n := by
  induction fuel generalizing n with
  | zero => simp at hfuel; omega
  | succ f ih =>
    rw [bitlen, if_neg (by omega)]
    by_cases h1 : n = 1
    · subst h1
      simp [bitlen_zero]
    · have hn2 : 0 < n / 2 := by omega
      have hf2 : n / 2 < 2 ^ f := by
        have h2 : 2 ^ (f + 1) = 2 ^ f * 2 := by ring
        omega
      obtain ⟨hlo, hhi⟩ := ih (n / 2) hn2 hf2
      have hL1 : 1 ≤ bitlen f (n / 2) := by
        rcases Nat.eq_zero_or_pos (bitlen f (n / 2)) with h0 | h
        · rw [h0] at hhi; simp at hhi; omega
        · exact h
      have hpow : 2 ^ bitlen f (n / 2) = 2 * 2 ^ (bitlen f (n / 2) - 1) := by
        conv_lhs => rw [show bitlen f (n / 2) = (bitlen f (n / 2) - 1) + 1 by omega]
        rw [pow_succ]; ring
      have hpow2 : 2 ^ (bitlen f (n / 2) + 1) = 2 * 2 ^ bitlen f (n / 2) := by
        rw [pow_succ]; ring
      constructor
      · have : bitlen f (n / 2) + 1 - 1 = bitlen f (n / 2) := by omega
        rw [this]
        omega
      · omega

theorem ratGePow2_iff (a b : Nat) (j : Int) :
    ratGePow2 a b j = true ↔ (2 : ℚ) ^ j * (b : ℚ) ≤ (a : ℚ) := by
  unfold ratGePow2
  split
  · rw [decide_eq_true_eq]
    have h2 : (2 : ℚ) ^ j = ((2 ^ j.toNat : Nat) : ℚ) := by
      conv_lhs => rw [← Int.toNat_of_nonneg (by assumption : (0:ℤ) ≤ j)]
      push_cast
      rw [zpow_natCast]
    rw [h2]
    constructor
    · intro h
      have := (Nat.cast_le (α := ℚ)).mpr h
      push_cast at this ⊢
      linarith
    · intro h
      have : ((b * 2 ^ j.toNat : Nat) : ℚ) ≤ ((a : Nat) : ℚ) := by
        push_cast at h ⊢
        linarith
      exact_mod_cast this
  · rename_i hj
    rw [decide_eq_true_eq]
    have hd : (0:ℤ) ≤ -j := by omega
    have h2 : (2 : ℚ) ^ j = (((2 ^ (-j).toNat : Nat) : ℚ))⁻¹ := by
      conv_lhs => rw [show j = -((-j).toNat : ℤ) by omega]
      push_cast
      rw [zpow_neg, zpow_natCast]
    have hpos : (0:ℚ) < ((2 ^ (-j).toNat : Nat) : ℚ) := by positivity
    rw [h2]
    rw [inv_mul_le_iff₀ hpos]
    constructor
    · intro h
      have := (Nat.cast_le (α := ℚ)).mpr h
      push_cast at this ⊢
      linarith
    · intro h
      have : ((b : Nat) : ℚ) ≤ ((a * 2 ^ (-j).toNat : Nat) : ℚ) := by
        push_cast at h ⊢
        linarith
      exact_mod_cast this

theorem floorLog2_spec (a b : Nat) (ha : 0 < a) (hb : 0 < b)
    (ha' : a < 2 ^ 64) (hb' : b < 2 ^ 64) :
    (2 : ℚ) ^ (floorLog2 a b) * (b : ℚ) ≤ (a : ℚ)
      ∧ (a : ℚ) < (2 : ℚ) ^ (floorLog2 a b + 1) * (b : ℚ) := by
  obtain ⟨hal, hah⟩ := bitlen_spec 64 a ha ha'
  obtain ⟨hbl, hbh⟩ := bitlen_spec 64 b hb hb'
  have hla : 1 ≤ bitlen 64 a := by
    rcases Nat.eq_zero_or_pos (bitlen 64 a) with h0 | h
    · rw [h0] at hah; simp at hah; omega
    · exact h
  have hlb : 1 ≤ bitlen 64 b := by
    rcases Nat.eq_zero_or_pos (bitlen 64 b) with h0 | h
    · rw [h0] at hbh; simp at hbh; omega
    · exact h
  set la := bitlen 64 a with hLa
  set lb := bitlen 64 b with hLb
  have haQ1 : (2 : ℚ) ^ ((la : ℤ) - 1) ≤ (a : ℚ) := by
    have : ((2 ^ (la - 1) : Nat) : ℚ) ≤ ((a : Nat) : ℚ) := by exact_mod_cast hal
    calc (2 : ℚ) ^ ((la : ℤ) - 1) = ((2 ^ (la - 1) : Nat) : ℚ) := by
          rw [show (la : ℤ) - 1 = ((la - 1 : Nat) : ℤ) by omega]
          push_cast
          rw [zpow_natCast]
      _ ≤ (a : ℚ) := this
  have haQ2 : (a : ℚ) < (2 : ℚ) ^ (la : ℤ) := by
    have : ((a : Nat) : ℚ) < ((2 ^ la : Nat) : ℚ) := by exact_mod_cast hah
    calc (a : ℚ) < ((2 ^ la : Nat) : ℚ) := this
      _ = (2 : ℚ) ^ (la : ℤ) := by push_cast; rw [zpow_natCast]
  have hbQ1 : (2 : ℚ) ^ ((lb : ℤ) - 1) ≤ (b : ℚ) := by
    have : ((2 ^ (lb - 1) : Nat) : ℚ) ≤ ((b : Nat) : ℚ) := by exact_mod_cast hbl
    calc (2 : ℚ) ^ ((lb : ℤ) - 1) = ((2 ^ (lb - 1) : Nat) : ℚ) := by
          rw [show (lb : ℤ) - 1 = ((lb - 1 : Nat) : ℤ) by omega]
          push_cast
          rw [zpow_natCast]
      _ ≤ (b : ℚ) := this
  have hbQ2 : (b : ℚ) < (2 : ℚ) ^ (lb : ℤ) := by
    have : ((b : Nat) : ℚ) < ((2 ^ lb : Nat) : ℚ) := by exact_mod_cast hbh
    calc (b : ℚ) < ((2 ^ lb : Nat) : ℚ) := this
      _ = (2 : ℚ) ^ (lb : ℤ) := by push_cast; rw [zpow_natCast]
  simp only [floorLog2]
  rw [← hLa, ← hLb]
  set k0 : ℤ := (la : ℤ) - (lb : ℤ) with hk0
  split
  · rename_i htest
    have hge := (ratGePow2_iff a b k0).mp htest
    refine ⟨hge, ?_⟩
    have hsplit : (2 : ℚ) ^ (la : ℤ) = (2 : ℚ) ^ (k0 + 1) * (2 : ℚ) ^ ((lb : ℤ) - 1) := by
      rw [← zpow_add₀ (by norm_num : (2:ℚ) ≠ 0)]
      congr 1
      omega
    have hmul : (2 : ℚ) ^ (k0 + 1) * (2 : ℚ) ^ ((lb : ℤ) - 1)
        ≤ (2 : ℚ) ^ (k0 + 1) * (b : ℚ) := by
      apply mul_le_mul_of_nonneg_left hbQ1
      positivity
    calc (a : ℚ) < (2 : ℚ) ^ (la : ℤ) := haQ2
      _ = (2 : ℚ) ^ (k0 + 1) * (2 : ℚ) ^ ((lb : ℤ) - 1) := hsplit
      _ ≤ (2 : ℚ) ^ (k0 + 1) * (b : ℚ) := hmul
  · rename_i htest
    have hlt : ¬ ((2 : ℚ) ^ k0 * (b : ℚ) ≤ (a : ℚ)) := by
      intro h
      exact htest ((ratGePow2_iff a b k0).mpr h)
    push_neg at hlt
    constructor
    · have hsplit : (2 : ℚ) ^ ((la : ℤ) - 1) = (2 : ℚ) ^ (k0 - 1) * (2 : ℚ) ^ (lb : ℤ) := by
        rw [← zpow_add₀ (by norm_num : (2:ℚ) ≠ 0)]
        congr 1
        omega
      have hmul : (2 : ℚ) ^ (k0 - 1) * (b : ℚ) < (2 : ℚ) ^ (k0 - 1) * (2 : ℚ) ^ (lb : ℤ) := by
        apply mul_lt_mul_of_pos_left hbQ2
        positivity
      have hstep : (2 : ℚ) ^ (k0 - 1) * (b : ℚ) < (a : ℚ) :=
        calc (2 : ℚ) ^ (k0 - 1) * (b : ℚ)
            < (2 : ℚ) ^ (k0 - 1) * (2 : ℚ) ^ (lb : ℤ) := hmul
          _ = (2 : ℚ) ^ ((la : ℤ) - 1) := hsplit.symm
          _ ≤ (a : ℚ) := haQ1
      exact hstep.le
    · rw [show k0 - 1 + 1 = k0 by ring]
      exact hlt

theorem rne_sub_abs_le (num den : Nat) (hden : 0 < den) :
    |(rne num den : ℚ) - (num : ℚ) / (den : ℚ)| ≤ 1 / 2 := by
  have hdq : (0:ℚ) < (den : ℚ) := by exact_mod_cast hden
  have hmod : den * (num / den) + num % den = num := Nat.div_add_mod num den
  have hrlt : num % den < den := Nat.mod_lt _ hden
  have hq : (num : ℚ) / (den : ℚ)
      = ((num / den : Nat) : ℚ) + ((num % den : Nat) : ℚ) / (den : ℚ) := by
    field_simp
    have : ((den * (num / den) + num % den : Nat) : ℚ) = ((num : Nat) : ℚ) := by
      exact_mod_cast congrArg (Nat.cast (R := ℚ)) hmod
    push_cast at this
    linarith
  rw [hq]
  simp only [rne]
  split
  · rename_i h
    have hc : ((num % den : Nat) : ℚ) / (den : ℚ) ≤ 1 / 2 := by
      rw [div_le_div_iff hdq (by norm_num)]
      have : (2 : ℚ) * ((num % den : Nat) : ℚ) ≤ ((den : Nat) : ℚ) := by
        exact_mod_cast (by omega : 2 * (num % den) ≤ den)
      linarith
    have hnn : (0:ℚ) ≤ ((num % den : Nat) : ℚ) / (den : ℚ) := by positivity
    rw [show ((num / den : Nat) : ℚ)
        - (((num / den : Nat) : ℚ) + ((num % den : Nat) : ℚ) / (den : ℚ))
        = -(((num % den : Nat) : ℚ) / (den : ℚ)) by ring]
    rw [abs_neg, abs_of_nonneg hnn]
    exact hc
  · rename_i h
    split
    · rename_i h2
      have hc : 1 / 2 ≤ ((num % den : Nat) : ℚ) / (den : ℚ) := by
        rw [div_le_div_iff (by norm_num) hdq]
        have : ((den : Nat) : ℚ) ≤ 2 * ((num % den : Nat) : ℚ) := by
          exact_mod_cast (by omega : den ≤ 2 * (num % den))
        linarith
      have hlt1 : ((num % den : Nat) : ℚ) / (den : ℚ) ≤ 1 := by
        rw [div_le_one hdq]
        exact_mod_cast hrlt.le
      push_cast
      rw [show ((num / den : Nat) : ℚ) + 1
          - (((num / den : Nat) : ℚ) + ((num % den : Nat) : ℚ) / (den : ℚ))
          = 1 - ((num % den : Nat) : ℚ) / (den : ℚ) by ring]
      rw [abs_of_nonneg (by linarith)]
      linarith
    · rename_i h2
      have heq : ((num % den : Nat) : ℚ) / (den : ℚ) = 1 / 2 := by
        rw [div_eq_div_iff hdq.ne' (by norm_num : (2:ℚ) ≠ 0)]
        have h22 : (num % den) * 2 = den := by omega
        have := congrArg (Nat.cast (R := ℚ)) h22
        push_cast at this
        linarith
      split
      · rw [show ((num / den : Nat) : ℚ)
            - (((num / den : Nat) : ℚ) + ((num % den : Nat) : ℚ) / (den : ℚ))
            = -(((num % den : Nat) : ℚ) / (den : ℚ)) by ring]
        rw [abs_neg, heq, abs_of_nonneg (by norm_num)]
      · push_cast
        rw [show ((num / den : Nat) : ℚ) + 1
            - (((num / den : Nat) : ℚ) + ((num % den : Nat) : ℚ) / (den : ℚ))
            = 1 - ((num % den : Nat) : ℚ) / (den : ℚ) by ring]
        rw [heq, abs_of_nonneg (by norm_num)]
        norm_num

theorem floorLog2_nonpos (a b : Nat) (ha : 0 < a) (hab : a ≤ b) (hb : b < 2 ^ 64) :
    floorLog2 a b ≤ 0 := by
  have hb0 : 0 < b := lt_of_lt_of_le ha hab
  have ha' : a < 2 ^ 64 := lt_of_le_of_lt hab hb
  obtain ⟨hklo, _⟩ := floorLog2_spec a b ha hb0 ha' hb
  by_contra hk
  push_neg at hk
  have h2k : (2 : ℚ) ≤ (2 : ℚ) ^ (floorLog2 a b) := by
    calc (2 : ℚ) = (2 : ℚ) ^ (1 : ℤ) := (zpow_one 2).symm
      _ ≤ (2 : ℚ) ^ (floorLog2 a b) := by
          apply zpow_le_zpow_right₀ one_le_two
          omega
  have hb1 : (1 : ℚ) ≤ (b : ℚ) := by exact_mod_cast hb0
  have hba : (a : ℚ) ≤ (b : ℚ) := by exact_mod_cast hab
  have hbnn : (0 : ℚ) ≤ (b : ℚ) := by positivity
  nlinarith [hklo]

theorem roundRatPos_spec (a b : Nat) (ha : 0 < a) (hab : a ≤ b) (hb : b < 2 ^ 64) :
    0 < (roundRatPos a b).1
      ∧ (roundRatPos a b).1 ≤ 2 ^ 53
      ∧ (roundRatPos a b).2 = floorLog2 a b - 52
      ∧ |((roundRatPos a b).1 : ℚ) * (2 : ℚ) ^ (roundRatPos a b).2 - (a : ℚ) / (b : ℚ)|
          ≤ (2 : ℚ) ^ (-53 : ℤ) := by
  have hb0 : 0 < b := lt_of_lt_of_le ha hab
  have hbQ : (0 : ℚ) < (b : ℚ) := by exact_mod_cast hb0
  have ha' : a < 2 ^ 64 := lt_of_le_of_lt hab hb
  obtain ⟨hklo, hkhi⟩ := floorLog2_spec a b ha hb0 ha' hb
  have hk0 : floorLog2 a b ≤ 0 := floorLog2_nonpos a b ha hab hb
  set k := floorLog2 a b with hk
  have hs : (0 : ℤ) ≤ 52 - k := by omega
  have hrep : roundRatPos a b = (rne (a * 2 ^ (52 - k).toNat) b, k - 52) := by
    simp only [roundRatPos]
    rw [← hk, if_pos hs]
  rw [hrep]
  set num := a * 2 ^ (52 - k).toNat with hnum
  set m := rne num b with hm
  have hnumQ : (num : ℚ) = (a : ℚ) * (2 : ℚ) ^ ((52 : ℤ) - k) := by
    rw [hnum]
    push_cast
    rw [← zpow_natCast (2 : ℚ) ((52 - k).toNat), Int.toNat_of_nonneg hs]
  have hscaled : (num : ℚ) / (b : ℚ) = ((a : ℚ) / (b : ℚ)) * (2 : ℚ) ^ ((52 : ℤ) - k) := by
    rw [hnumQ]
    ring
  have hub : (num : ℚ) / (b : ℚ) < (2 : ℚ) ^ (53 : ℤ) := by
    rw [hscaled]
    have h1 : (a : ℚ) / (b : ℚ) < (2 : ℚ) ^ (k + 1) := by
      rw [div_lt_iff hbQ]
      linarith [hkhi]
    calc ((a : ℚ) / (b : ℚ)) * (2 : ℚ) ^ ((52 : ℤ) - k)
        < (2 : ℚ) ^ (k + 1) * (2 : ℚ) ^ ((52 : ℤ) - k) := by
          apply mul_lt_mul_of_pos_right h1
          positivity
      _ = (2 : ℚ) ^ (53 : ℤ) := by
          rw [← zpow_add₀ (by norm_num : (2:ℚ) ≠ 0)]
          congr 1
          ring
  have hlbv : (2 : ℚ) ^ (52 : ℤ) ≤ (num : ℚ) / (b : ℚ) := by
    rw [hscaled]
    have h1 : (2 : ℚ) ^ k ≤ (a : ℚ) / (b : ℚ) := by
      rw [le_div_iff hbQ]
      linarith [hklo]
    calc (2 : ℚ) ^ (52 : ℤ) = (2 : ℚ) ^ k * (2 : ℚ) ^ ((52 : ℤ) - k) := by
          rw [← zpow_add₀ (by norm_num : (2:ℚ) ≠ 0)]
          congr 1
          ring
      _ ≤ ((a : ℚ) / (b : ℚ)) * (2 : ℚ) ^ ((52 : ℤ) - k) := by
          apply mul_le_mul_of_nonneg_right h1
          positivity
  have hrne := rne_sub_abs_le num b hb0
  rw [← hm] at hrne
  obtain ⟨hrlo, hrhi⟩ := abs_le.mp hrne
  have h52Q : ((2 ^ 52 : Nat) : ℚ) = (2 : ℚ) ^ (52 : ℤ) := by
    rw [show (52 : ℤ) = ((52 : ℕ) : ℤ) from rfl, zpow_natCast]
    push_cast
    norm_num
  have h53Q : ((2 ^ 53 : Nat) : ℚ) = (2 : ℚ) ^ (53 : ℤ) := by
    rw [show (53 : ℤ) = ((53 : ℕ) : ℤ) from rfl, zpow_natCast]
    push_cast
    norm_num
  refine ⟨?_, ?_, rfl, ?_⟩
  · have h1 : (2 : ℚ) ^ (52 : ℤ) - 1 / 2 ≤ (m : ℚ) := by linarith
    have h2 : (1 : ℚ) ≤ (2 : ℚ) ^ (52 : ℤ) := by
      rw [← h52Q]
      exact_mod_cast Nat.one_le_two_pow
    have : (0 : ℚ) < (m : ℚ) := by linarith
    exact_mod_cast this
  · have h1 : (m : ℚ) < (2 : ℚ) ^ (53 : ℤ) + 1 / 2 := by linarith
    have h2 : (m : ℚ) < ((2 ^ 53 : Nat) : ℚ) + 1 := by
      rw [h53Q]
      linarith
    have : m < 2 ^ 53 + 1 := by exact_mod_cast h2
    omega
  · show |(m : ℚ) * (2 : ℚ) ^ (k - 52 : ℤ) - (a : ℚ) / (b : ℚ)| ≤ (2 : ℚ) ^ (-53 : ℤ)
    have hcpos : (0 : ℚ) < (2 : ℚ) ^ (k - 52 : ℤ) := by positivity
    have h1 : |(m : ℚ) - (num : ℚ) / (b : ℚ)| * (2 : ℚ) ^ (k - 52 : ℤ)
        ≤ (1 / 2) * (2 : ℚ) ^ (k - 52 : ℤ) :=
      mul_le_mul_of_nonneg_right hrne hcpos.le
    have h2 : |(m : ℚ) - (num : ℚ) / (b : ℚ)| * (2 : ℚ) ^ (k - 52 : ℤ)
        = |(m : ℚ) * (2 : ℚ) ^ (k - 52 : ℤ) - (a : ℚ) / (b : ℚ)| := by
      rw [← abs_of_nonneg hcpos.le, ← abs_mul]
      congr 2
      rw [sub_mul, abs_of_nonneg hcpos.le, hscaled]
      congr 1
      rw [mul_assoc, ← zpow_add₀ (by norm_num : (2:ℚ) ≠ 0)]
      rw [show (52 : ℤ) - k + (k - 52) = 0 by ring, zpow_zero, mul_one]
    have h3 : (1 / 2 : ℚ) * (2 : ℚ) ^ (k - 52 : ℤ) = (2 : ℚ) ^ (k - 53 : ℤ) := by
      rw [show (1 / 2 : ℚ) = (2 : ℚ) ^ (-1 : ℤ) by norm_num]
      rw [← zpow_add₀ (by norm_num : (2:ℚ) ≠ 0)]
      congr 1
      ring
    have h4 : (2 : ℚ) ^ (k - 53 : ℤ) ≤ (2 : ℚ) ^ (-53 : ℤ) := by
      apply zpow_le_zpow_right₀ one_le_two
      omega
    calc |(m : ℚ) * (2 : ℚ) ^ (k - 52 : ℤ) - (a : ℚ) / (b : ℚ)|
        = |(m : ℚ) - (num : ℚ) / (b : ℚ)| * (2 : ℚ) ^ (k - 52 : ℤ) := h2.symm
      _ ≤ (1 / 2) * (2 : ℚ) ^ (k - 52 : ℤ) := h1
      _ = (2 : ℚ) ^ (k - 53 : ℤ) := h3
      _ ≤ (2 : ℚ) ^ (-53 : ℤ) := h4

theorem jsMul98Double_spec (m : Nat) (e : Int) (hm0 : 0 < m) (hm : m ≤ 2 ^ 53)
    (he : e ≤ -52) :
    |dval (jsMul98Double ((m : Int), e)) - dval ((m : Int), e) * 98|
      ≤ (2 : ℚ) ^ (-46 : ℤ) := by
  have hmZ : (0 : ℤ) < (m : ℤ) := by exact_mod_cast hm0
  have hne : ((m : Int) * 98) ≠ 0 := by nlinarith
  have hm98 : ((m : Int) * 98) = ((m * 98 : Nat) : Int) := by push_cast; ring
  have hnatAbs : ((m : Int) * 98).natAbs = m * 98 := by
    rw [hm98]
    exact Int.natAbs_ofNat _
  set n := m * 98 with hn
  have hn0 : 0 < n := by omega
  have h53 : (2 : ℕ) ^ 53 = 9007199254740992 := by norm_num
  have h60 : (2 : ℕ) ^ 60 = 1152921504606846976 := by norm_num
  have h64 : (2 : ℕ) ^ 64 = 18446744073709551616 := by norm_num
  have hnlt : n < 2 ^ 60 := by
    have : m * 98 ≤ 2 ^ 53 * 98 := Nat.mul_le_mul_right _ hm
    omega
  obtain ⟨hbl, hbh⟩ := bitlen_spec 64 n hn0 (by omega)
  set len := bitlen 64 n with hlen
  have hlen60 : len ≤ 60 := by
    by_contra h
    push_neg at h
    have : 2 ^ 60 ≤ 2 ^ (len - 1) := Nat.pow_le_pow_right (by norm_num) (by omega)
    omega
  simp only [jsMul98Double]
  rw [if_neg hne, hnatAbs, ← hlen]
  split
  · simp only [dval]
    have hzero : (((m : Int) * 98 : Int) : ℚ) * (2 : ℚ) ^ e
        - ((m : Int) : ℚ) * (2 : ℚ) ^ e * 98 = 0 := by
      push_cast
      ring
    rw [hzero, abs_zero]
    positivity
  · rename_i hgt
    push_neg at hgt
    rw [if_neg (by nlinarith : ¬ ((m : Int) * 98 < 0))]
    set d := len - 53 with hd
    have hd1 : 1 ≤ d := by omega
    have hd7 : d ≤ 7 := by omega
    set m2 := rne n (2 ^ d) with hm2
    have hrne := rne_sub_abs_le n (2 ^ d) (by positivity)
    rw [← hm2] at hrne
    simp only [dval]
    have hdQ : ((2 ^ d : Nat) : ℚ) = (2 : ℚ) ^ (d : ℤ) := by
      push_cast
      rw [zpow_natCast]
    have hcpos : (0 : ℚ) < (2 : ℚ) ^ (e + (d : ℤ)) := by positivity
    have h1 : |(m2 : ℚ) - (n : ℚ) / ((2 ^ d : Nat) : ℚ)| * (2 : ℚ) ^ (e + (d : ℤ))
        ≤ (1 / 2) * (2 : ℚ) ^ (e + (d : ℤ)) :=
      mul_le_mul_of_nonneg_right hrne hcpos.le
    have hval : ((n : ℚ) / ((2 ^ d : Nat) : ℚ)) * (2 : ℚ) ^ (e + (d : ℤ))
        = (n : ℚ) * (2 : ℚ) ^ e := by
      rw [hdQ, zpow_add₀ (by norm_num : (2:ℚ) ≠ 0)]
      have hdne : (2 : ℚ) ^ (d : ℤ) ≠ 0 := by positivity
      field_simp
      ring
    have h2 : |(m2 : ℚ) - (n : ℚ) / ((2 ^ d : Nat) : ℚ)| * (2 : ℚ) ^ (e + (d : ℤ))
        = |(m2 : ℚ) * (2 : ℚ) ^ (e + (d : ℤ)) - (n : ℚ) * (2 : ℚ) ^ e| := by
      rw [← abs_of_nonneg hcpos.le, ← abs_mul]
      congr 2
      rw [sub_mul, abs_of_nonneg hcpos.le, hval]
    have h3 : (1 / 2 : ℚ) * (2 : ℚ) ^ (e + (d : ℤ)) = (2 : ℚ) ^ (e + (d : ℤ) - 1) := by
      rw [show (1 / 2 : ℚ) = (2 : ℚ) ^ (-1 : ℤ) by norm_num]
      rw [← zpow_add₀ (by norm_num : (2:ℚ) ≠ 0)]
      congr 1
      ring
    have h4 : (2 : ℚ) ^ (e + (d : ℤ) - 1) ≤ (2 : ℚ) ^ (-46 : ℤ) := by
      apply zpow_le_zpow_right₀ one_le_two
      omega
    have hgoal : (((m : ℚ)) * 98) * (2 : ℚ) ^ e = (n : ℚ) * (2 : ℚ) ^ e := by
      rw [hn]
      push_cast
      ring
    calc |(m2 : ℚ) * (2 : ℚ) ^ (e + (d : ℤ)) - ((m : Int) : ℚ) * (2 : ℚ) ^ e * 98|
        = |(m2 : ℚ) * (2 : ℚ) ^ (e + (d : ℤ)) - (n : ℚ) * (2 : ℚ) ^ e| := by
          rw [show ((m : Int) : ℚ) * (2 : ℚ) ^ e * 98 = ((m : ℚ) * 98) * (2 : ℚ) ^ e by
            push_cast; ring]
          rw [hgoal]
      _ = |(m2 : ℚ) - (n : ℚ) / ((2 ^ d : Nat) : ℚ)| * (2 : ℚ) ^ (e + (d : ℤ)) := h2.symm
      _ ≤ (1 / 2) * (2 : ℚ) ^ (e + (d : ℤ)) := h1
      _ = (2 : ℚ) ^ (e + (d : ℤ) - 1) := h3
      _ ≤ (2 : ℚ) ^ (-46 : ℤ) := h4

theorem jsFloorDouble_eq_floor (p : Int × Int) : jsFloorDouble p = ⌊dval p⌋ := by
  unfold jsFloorDouble dval
  split
  · rename_i h
    have hcast : ((p.1 * 2 ^ p.2.toNat : Int) : ℚ) = (p.1 : ℚ) * (2 : ℚ) ^ p.2 := by
      push_cast
      rw [← zpow_natCast (2 : ℚ) p.2.toNat, Int.toNat_of_nonneg h]
    rw [← hcast, Int.floor_intCast]
  · rename_i h
    rw [intFdiv_eq_ratFloor _ _ (by positivity)]
    congr 1
    push_cast
    rw [← zpow_natCast (2 : ℚ) (-p.2).toNat, Int.toNat_of_nonneg (by omega)]
    rw [div_eq_mul_inv, ← zpow_neg, neg_neg]

theorem two_zpow_neg_nat (n : ℕ) : (2 : ℚ) ^ (-(n : ℤ)) = (((2 ^ n : ℕ) : ℚ))⁻¹ := by
  rw [zpow_neg, zpow_natCast]
  norm_num

theorem jsDivDouble_pos_rep (c t : Int) (hc : 1 ≤ c) (ht : 1 ≤ t) :
    jsDivDouble c t = (((roundRatPos c.natAbs t.natAbs).1 : Int),
      (roundRatPos c.natAbs t.natAbs).2) := by
  simp only [jsDivDouble]
  rw [if_neg (by omega), if_pos (iff_of_false (by omega) (by omega))]

theorem progress_double_err (c t : Int) (hc : 1 ≤ c) (hct : c ≤ t) (ht : t ≤ 500) :
    |dval (jsMul98Double (jsDivDouble c t)) - ((c : ℚ) / (t : ℚ)) * 98|
      ≤ (2 : ℚ) ^ (-45 : ℤ) := by
  have ht1 : (1 : ℤ) ≤ t := le_trans hc hct
  have hcQ : ((c.natAbs : ℕ) : ℤ) = c := Int.natAbs_of_nonneg (by omega)
  have htQ : ((t.natAbs : ℕ) : ℤ) = t := Int.natAbs_of_nonneg (by omega)
  set a := c.natAbs with hA
  set b := t.natAbs with hB
  have ha : 0 < a := by omega
  have hab : a ≤ b := by omega
  have hblt : b < 2 ^ 64 := by
    have h64 : (2 : ℕ) ^ 64 = 18446744073709551616 := by norm_num
    omega
  obtain ⟨hm0, hm53, he2, herr⟩ := roundRatPos_spec a b ha hab hblt
  have hknp : floorLog2 a b ≤ 0 := floorLog2_nonpos a b ha hab hblt
  have hrep := jsDivDouble_pos_rep c t hc ht1
  rw [← hA, ← hB] at hrep
  set p := roundRatPos a b with hp
  have hmul := jsMul98Double_spec p.1 p.2 hm0 hm53 (by omega : p.2 ≤ -52)
  have hdv : dval (((p.1 : Nat) : Int), p.2) = (p.1 : ℚ) * (2 : ℚ) ^ p.2 := by
    simp only [dval]
    push_cast
    ring
  have habQ : (a : ℚ) / (b : ℚ) = (c : ℚ) / (t : ℚ) := by
    have h1 : ((a : ℕ) : ℚ) = (c : ℚ) := by exact_mod_cast congrArg (Int.cast (R := ℚ)) hcQ
    have h2 : ((b : ℕ) : ℚ) = (t : ℚ) := by exact_mod_cast congrArg (Int.cast (R := ℚ)) htQ
    rw [h1, h2]
  rw [habQ] at herr
  rw [hrep]
  have htri : |dval (jsMul98Double (((p.1 : Nat) : Int), p.2)) - ((c : ℚ) / (t : ℚ)) * 98|
      ≤ |dval (jsMul98Double (((p.1 : Nat) : Int), p.2))
            - dval (((p.1 : Nat) : Int), p.2) * 98|
        + |dval (((p.1 : Nat) : Int), p.2) * 98 - ((c : ℚ) / (t : ℚ)) * 98| := by
    have := abs_sub_le (dval (jsMul98Double (((p.1 : Nat) : Int), p.2)))
      (dval (((p.1 : Nat) : Int), p.2) * 98) (((c : ℚ) / (t : ℚ)) * 98)
    exact this
  have hsecond : |dval (((p.1 : Nat) : Int), p.2) * 98 - ((c : ℚ) / (t : ℚ)) * 98|
      ≤ 98 * (2 : ℚ) ^ (-53 : ℤ) := by
    rw [hdv]
    rw [show (p.1 : ℚ) * (2 : ℚ) ^ p.2 * 98 - ((c : ℚ) / (t : ℚ)) * 98
        = ((p.1 : ℚ) * (2 : ℚ) ^ p.2 - (c : ℚ) / (t : ℚ)) * 98 by ring]
    rw [abs_mul, abs_of_nonneg (by norm_num : (0:ℚ) ≤ 98)]
    nlinarith [herr]
  have hnumeric : (2 : ℚ) ^ (-46 : ℤ) + 98 * (2 : ℚ) ^ (-53 : ℤ)
      ≤ (2 : ℚ) ^ (-45 : ℤ) := by
    rw [show (-46 : ℤ) = -((46 : ℕ) : ℤ) by norm_num,
        show (-53 : ℤ) = -((53 : ℕ) : ℤ) by norm_num,
        show (-45 : ℤ) = -((45 : ℕ) : ℤ) by norm_num,
        two_zpow_neg_nat, two_zpow_neg_nat, two_zpow_neg_nat]
    norm_num
  calc |dval (jsMul98Double (((p.1 : Nat) : Int), p.2)) - ((c : ℚ) / (t : ℚ)) * 98|
      ≤ |dval (jsMul98Double (((p.1 : Nat) : Int), p.2))
            - dval (((p.1 : Nat) : Int), p.2) * 98|
        + |dval (((p.1 : Nat) : Int), p.2) * 98 - ((c : ℚ) / (t : ℚ)) * 98| := htri
    _ ≤ (2 : ℚ) ^ (-46 : ℤ) + 98 * (2 : ℚ) ^ (-53 : ℤ) := add_le_add hmul hsecond
    _ ≤ (2 : ℚ) ^ (-45 : ℤ) := hnumeric

theorem toUploadProgress_float_cases (c t : Int) (ht0 : 0 < t)
    (htM : t ≤ 500) (hc0 : 0 ≤ c) (hct : c ≤ t) :
    toUploadProgress c t = 1 + ⌊((c : ℚ) / (t : ℚ)) * 98⌋
      ∨ toUploadProgress c t = ⌊((c : ℚ) / (t : ℚ)) * 98⌋ := by
  have htQ : (0 : ℚ) < (t : ℚ) := by exact_mod_cast ht0
  rcases eq_or_lt_of_le hc0 with hc | hcpos
  · left
    rw [← hc]
    simp only [toUploadProgress, jsDivDouble, jsMul98Double, jsFloorDouble]
    rw [if_neg (by omega : ¬ t ≤ 0)]
    norm_num
  · have hc1 : 1 ≤ c := hcpos
    have herr := progress_double_err c t hc1 hct (by omega)
    obtain ⟨herr1, herr2⟩ := abs_le.mp herr
    set v := dval (jsMul98Double (jsDivDouble c t)) with hv
    set x : ℚ := ((c : ℚ) / (t : ℚ)) * 98 with hx
    set X := ⌊x⌋ with hX
    have hcQ0 : (0 : ℚ) ≤ (c : ℚ) := by exact_mod_cast hc0
    have hx0 : 0 ≤ x := by
      rw [hx]
      apply mul_nonneg (div_nonneg hcQ0 htQ.le) (by norm_num)
    have hX0 : 0 ≤ X := Int.floor_nonneg.mpr hx0
    have hx98 : x ≤ 98 := by
      rw [hx]
      have hq : (c : ℚ) / (t : ℚ) ≤ 1 := by
        rw [div_le_one htQ]
        exact_mod_cast hct
      nlinarith
    have hX98 : X ≤ 98 := by
      calc X ≤ ⌊(98 : ℚ)⌋ := Int.floor_le_floor hx98
        _ = 98 := by norm_num
    have hgap : x ≤ (X : ℚ) + 1 - 1 / (t : ℚ) := by
      have hxlt : x < (X : ℚ) + 1 := Int.lt_floor_add_one x
      have htx : (t : ℚ) * x = 98 * (c : ℚ) := by
        rw [hx]
        field_simp
        ring
      have h1 : (98 * c : ℤ) < t * (X + 1) := by
        have h2 : (t : ℚ) * x < (t : ℚ) * ((X : ℚ) + 1) :=
          mul_lt_mul_of_pos_left hxlt htQ
        rw [htx] at h2
        exact_mod_cast h2
      have h3 : (98 * c : ℤ) ≤ t * (X + 1) - 1 := by omega
      have h4 : 98 * (c : ℚ) ≤ (t : ℚ) * ((X : ℚ) + 1) - 1 := by exact_mod_cast h3
      rw [← htx] at h4
      have h5 : (t : ℚ) * ((X : ℚ) + 1 - 1 / (t : ℚ)) = (t : ℚ) * ((X : ℚ) + 1) - 1 := by
        field_simp
        ring
      nlinarith
    have h45lit : (2 : ℚ) ^ (-45 : ℤ) = 1 / 35184372088832 := by norm_num
    rw [h45lit] at herr1 herr2
    have hsmall : (1 : ℚ) / 35184372088832 < 1 / (t : ℚ) := by
      rw [div_lt_div_iff (by norm_num) htQ]
      have ht500 : (t : ℚ) ≤ 500 := by exact_mod_cast htM
      linarith
    have h1t : 1 / (t : ℚ) ≤ 1 := by
      rw [div_le_one htQ]
      exact_mod_cast ht0
    have hvup : v < (X : ℚ) + 1 := by linarith
    have hvlo : (X : ℚ) - 1 ≤ v := by
      have hfl := Int.floor_le x
      rw [← hX] at hfl
      linarith
    have hfl_up : ⌊v⌋ ≤ X := by
      have : ⌊v⌋ < X + 1 := Int.floor_lt.mpr (by push_cast; exact hvup)
      omega
    have hfl_lo : X - 1 ≤ ⌊v⌋ := by
      apply Int.le_floor.mpr
      push_cast
      linarith
    have hProg : toUploadProgress c t = min 99 (max 1 (1 + ⌊v⌋)) := by
      simp only [toUploadProgress]
      rw [if_neg (by omega : ¬ t ≤ 0)]
      rw [jsFloorDouble_eq_floor, ← hv]
    rcases (by omega : ⌊v⌋ = X ∨ ⌊v⌋ = X - 1) with hcase | hcase
    · left
      rw [hProg, hcase]
      rw [max_eq_right (by omega), min_eq_right (by omega)]
    · rcases (by omega : X = 0 ∨ 1 ≤ X) with h0 | h1
      · left
        rw [hProg, hcase, h0]
        norm_num
      · right
        rw [hProg, hcase, show 1 + (X - 1) = X by ring]
        rw [max_eq_right (by omega), min_eq_right (by omega)]

theorem toUploadProgress_le_99 (completedParts totalParts : Int) :
    toUploadProgress completedParts totalParts ≤ 99 := by
  unfold toUploadProgress
  split
  · norm_num
  · exact min_le_left _ _

theorem toUploadProgress_ge_1 (completedParts totalParts : Int) :
    1 ≤ toUploadProgress completedParts totalParts := by
  unfold toUploadProgress
  split
  · norm_num
  · exact le_min (by norm_num) (le_max_left _ _)

/-! ## Claim theorems -/

/-- C9 counterexample: at `completedParts = 1`, `totalParts = 49` — a
reachable in-range input (`49 ≤ UploadMaxParts`) — the program computes
progress `2`, because the binary64 product `(1 / 49) * 98` is
`1.9999999999999998`, just below `2`, so its floor is `1`; the claimed
exact formula gives `1 + ⌊(1 / 49) * 98⌋ = 1 + 2 = 3`. -/
theorem c9_progress_claim_counterexample :
    toUploadProgress 1 49 = 2
      ∧ (1 : Int) + ⌊((1 : ℚ) / (49 : ℚ)) * 98⌋ = 3
      ∧ toUploadProgress 1 49 ≠ 1 + ⌊((1 : ℚ) / (49 : ℚ)) * 98⌋ := by
  have h1 : toUploadProgress 1 49 = 2 := by decide
  have h2 : ((1 : ℚ) / (49 : ℚ)) * 98 = 2 := by norm_num
  have h3 : (1 : Int) + ⌊((1 : ℚ) / (49 : ℚ)) * 98⌋ = 3 := by
    rw [h2, show ((2 : ℚ)) = ((2 : ℤ) : ℚ) by norm_num, Int.floor_intCast]
    decide
  refine ⟨h1, h3, ?_⟩
  rw [h1, h3]
  decide

/-- C9 (amended): for every `completedParts` in `[0, totalParts]` with
`1 ≤ totalParts ≤ UploadMaxParts` (the server caps sessions at
`UploadMaxParts` parts), the client progress function returns the binary64
evaluation of `1 + floor(completedParts / totalParts * 98)`, which equals
the exact formula `1 + ⌊completedParts / totalParts * 98⌋` except that the
double rounding can land just below an integer and yield one less (e.g. at
`completedParts = 1, totalParts = 49`); the returned value always lies in
`[1, 99]` (for all integer inputs, by the `min`/`max` clamps); in a
multipart `handleStartUpload` run the value `100` never appears in the
progress trace unless the server's complete call returned success, and on
success it is the final value. -/
theorem c9_progress_float_derivation :
    (∀ completedParts totalParts : Int, 0 < totalParts →
      totalParts ≤ UploadMaxParts → 0 ≤ completedParts →
      completedParts ≤ totalParts →
      (toUploadProgress completedParts totalParts
          = 1 + ⌊((completedParts : ℚ) / (totalParts : ℚ)) * 98⌋
        ∨ toUploadProgress completedParts totalParts
          = ⌊((completedParts : ℚ) / (totalParts : ℚ)) * 98⌋))
    ∧ (∀ completedParts totalParts : Int,
        1 ≤ toUploadProgress completedParts totalParts
          ∧ toUploadProgress completedParts totalParts ≤ 99)
    ∧ (∀ totalParts partsUploaded : Nat,
        (100 : Int) ∉ multipartProgressTrace totalParts partsUploaded false)
    ∧ (∀ totalParts : Nat,
        (multipartProgressTrace totalParts totalParts true).getLast? = some 100) := by
  refine ⟨?_, ?_, ?_, ?_⟩
  · intro completedParts totalParts ht0 htM hc0 hct
    exact toUploadProgress_float_cases completedParts totalParts ht0
      (by simpa [UploadMaxParts] using htM) hc0 hct
  · intro completedParts totalParts
    exact ⟨toUploadProgress_ge_1 _ _, toUploadProgress_le_99 _ _⟩
  · intro totalParts partsUploaded hmem
    simp only [multipartProgressTrace, List.mem_append, List.mem_map,
      List.mem_range] at hmem
    rcases hmem with (h12 | ⟨k, _, hk⟩) | hrest
    · simp at h12
    · have := toUploadProgress_le_99 ((k : Int) + 1) (totalParts : Int)
      omega
    · by_cases h : partsUploaded = totalParts
      · simp [h] at hrest
      · simp [h] at hrest
  · intro totalParts
    have : multipartProgressTrace totalParts totalParts true
        = ([1, 1]
            ++ (List.range totalParts).map
                (fun k => toUploadProgress ((k : Int) + 1) (totalParts : Int))
            ++ [99]) ++ [100] := by
      simp [multipartProgressTrace]
    rw [this, List.getLast?_concat]

/-- C9 witness: the amended theorem applied at `completedParts = 2`,
`totalParts = 4` (there the two sides agree and the progress is `50`). -/
theorem c9_progress_float_derivation_witness :
    toUploadProgress 2 4 = 1 + ⌊((2 : ℚ) / (4 : ℚ)) * 98⌋
      ∨ toUploadProgress 2 4 = ⌊((2 : ℚ) / (4 : ℚ)) * 98⌋ :=
  c9_progress_float_derivation.1 2 4 (by decide) (by decide) (by decide) (by decide)

/-! ## C8: loader reconciliation -/

theorem reconcileSlot_none_right (u : Option UploadItem) :
    reconcileSlot u none = none := by
  cases u <;> rfl

theorem reconcileSlot_some_right (u : Option UploadItem) (e : PersistedUpload) :
    reconcileSlot u (some e) = u := by
  cases u <;> rfl

/-- C8: at load-time reconciliation, every question whose persisted form
state has no `singleUploads` entry gets an empty initial slot (hiding any
server-reported active file as user-removed), and every question with a
persisted entry keeps the server-reported slot unchanged. -/
theorem c8_loader_reconciliation
    (initialUploads : UploadSlotMap UploadItem) (ps : PersistedFormState)
    (questionId : String) (hq : questionId ∈ UploadQuestionIds) :
    (ps.singleUploads.get questionId = none →
      (reconcileLoadedUploads initialUploads (some ps)).get questionId = none)
    ∧ (∀ entry, ps.singleUploads.get questionId = some entry →
      (reconcileLoadedUploads initialUploads (some ps)).get questionId
        = initialUploads.get questionId) := by
  simp only [UploadQuestionIds, List.mem_cons, List.not_mem_nil, or_false] at hq
  rcases hq with rfl | rfl | rfl | rfl | rfl <;>
    exact ⟨fun h => by
        simp only [UploadSlotMap.get] at h
        simp [reconcileLoadedUploads, UploadSlotMap.get, h, reconcileSlot_none_right],
      fun entry he => by
        simp only [UploadSlotMap.get] at he
        simp [reconcileLoadedUploads, UploadSlotMap.get, he, reconcileSlot_some_right]⟩

def exServerItemQ2 : UploadItem :=
  { id := "file-q2", questionId := "q2", fileName := "b.pdf", sizeBytes := 10,
    status := "complete", progressPct := 100 }

/-- Loader view where the server reports an active file only for q2. -/
def exInitialUploads : UploadSlotMap UploadItem :=
  { q1 := none, q2 := some exServerItemQ2, q3 := none, q4 := none, q5 := none }

/-- Persisted form state with no entry for q2. -/
def exPersistedState : PersistedFormState :=
  { singleUploads := { q1 := none, q2 := none, q3 := none, q4 := none, q5 := none },
    multiUploads := { q1 := none, q2 := none, q3 := none, q4 := none, q5 := none } }

/-- C8 witness: the spec scenario — status reports an active file for q2,
persisted state has no q2 entry, so q2 loads empty. -/
theorem c8_loader_reconciliation_witness :
    (reconcileLoadedUploads exInitialUploads (some exPersistedState)).get "q2"
      = none :=
  (c8_loader_reconciliation exInitialUploads exPersistedState "q2"
    (by decide)).1 (by decide)

/-! ## C7: single-slot coalescing saver -/

theorem saverStep_inFlight_le {σ : Type} (st : SaverState σ) (e : SaverEvent σ)
    (h : st.inFlight ≤ 1) : (saverStep st e).1.inFlight ≤ 1 := by
  cases e with
  | mutate s =>
    by_cases hf : st.inFlight > 0
    · simpa [saverStep, hf] using h
    · have h0 : st.inFlight = 0 := by omega
      simp [saverStep, hf, h0]
  | finish =>
    cases hp : st.pending with
    | some p => simpa [saverStep, hp] using h
    | none =>
      have hstep : (saverStep st SaverEvent.finish).1.inFlight = st.inFlight - 1 := by
        simp [saverStep, hp]
      omega

theorem saverRun_inFlight_le {σ : Type} (evs : List (SaverEvent σ))
    (st : SaverState σ) (h : st.inFlight ≤ 1) :
    (saverRun st evs).1.inFlight ≤ 1 := by
  induction evs generalizing st with
  | nil => exact h
  | cons e rest ih =>
    simp only [saverRun]
    exact ih _ (saverStep_inFlight_le st e h)

theorem saverRun_coalesce {σ : Type} (ms : List σ) (p : Option σ)
    (hms : ms ≠ []) :
    saverRun ⟨1, p⟩ (ms.map SaverEvent.mutate ++ [SaverEvent.finish])
      = (⟨1, none⟩, [ms.getLast hms]) := by
  induction ms generalizing p with
  | nil => exact absurd rfl hms
  | cons m rest ih =>
    cases rest with
    | nil => simp [saverRun, saverStep]
    | cons m2 rest2 =>
      have step : saverRun (⟨1, p⟩ : SaverState σ)
          (((m :: m2 :: rest2).map SaverEvent.mutate) ++ [SaverEvent.finish])
          = saverRun ⟨1, some m⟩
              (((m2 :: rest2).map SaverEvent.mutate) ++ [SaverEvent.finish]) := by
        simp [saverRun, saverStep]
      rw [step, ih (some m) (by simp)]
      congr 1

/-- C7: the persisted-form-state saver keeps at most one save in flight
from the idle initial state under any event sequence; and when mutations
arrive while a save is in flight, the latest state overwrites the single
pending slot, so that when the in-flight save finishes exactly one
follow-up save fires, carrying only the final state. -/
theorem c7_saver_coalescing :
    (∀ (σ : Type) (evs : List (SaverEvent σ)),
      (saverRun ⟨0, none⟩ evs).1.inFlight ≤ 1)
    ∧ (∀ (σ : Type) (ms : List σ) (p : Option σ) (hms : ms ≠ []),
      saverRun ⟨1, p⟩ (ms.map SaverEvent.mutate ++ [SaverEvent.finish])
        = (⟨1, none⟩, [ms.getLast hms])) :=
  ⟨fun _ evs => saverRun_inFlight_le evs _ (Nat.zero_le 1),
   fun _ ms p hms => saverRun_coalesce ms p hms⟩

/-- C7 witness: the spec scenario — two rapid edits (`1` then `2`) while a
save is in flight yield exactly one follow-up save with the final state. -/
theorem c7_saver_coalescing_witness :
    saverRun (⟨1, none⟩ : SaverState Nat)
        ([1, 2].map SaverEvent.mutate ++ [SaverEvent.finish])
      = (⟨1, none⟩, [[1, 2].getLast (by decide)]) :=
  c7_saver_coalescing.2 Nat [1, 2] none (by decide)

/-! ## C6: bounded provider retry -/

/-- C6: for every storage-provider operation, the retry loop makes at most
3 total attempts; the waits between attempts are the fixed delays 250ms
then 750ms; every attempt that was retried had failed with an error the
classifier (`errorIsRetryable`, i.e. HTTP 429 / status ≥ 500 / known
timeout- or connection-cause codes / transient message substrings, minus
the non-retryable codes) marks retryable; and a non-retryable error on the
first attempt makes the operation fail immediately after exactly that one
attempt, surfacing the normalized message. -/
theorem c6_provider_retry_bounded {T : Type}
    (run : Nat → Except StorageErrorInput T) :
    (runR2ProviderOperation run).attempts ≤ 3
    ∧ (runR2ProviderOperation run).delaysWaited
        = ProviderRetryDelaysMs.take ((runR2ProviderOperation run).attempts - 1)
    ∧ (∀ k, 1 ≤ k → k < (runR2ProviderOperation run).attempts →
        ∃ e, run k = .error e ∧ errorIsRetryable e = true)
    ∧ (∀ e, run 1 = .error e → errorIsRetryable e = false →
        (runR2ProviderOperation run).attempts = 1
        ∧ (runR2ProviderOperation run).result
            = .err .UPLOAD_PROVIDER_UNAVAILABLE
                (getReadableStorageError (normalizeStorageError e))) := by
  rcases h1 : run 1 with e1 | d1
  case ok =>
    have ho : runR2ProviderOperation run
        = { result := .ok d1, attempts := 1, delaysWaited := [] } := by
      simp [runR2ProviderOperation, runR2Loop, ProviderMaxAttempts,
        ProviderRetryDelaysMs, h1]
    refine ⟨by rw [ho]; norm_num, by rw [ho]; rfl, ?_, ?_⟩
    · intro k hk1 hk2
      rw [ho] at hk2
      simp only at hk2
      omega
    · intro e he
      cases he
  case error =>
    by_cases hr1 : errorIsRetryable e1
    case neg =>
      have ho : runR2ProviderOperation run
          = { result := .err .UPLOAD_PROVIDER_UNAVAILABLE
                (getReadableStorageError (normalizeStorageError e1)),
              attempts := 1, delaysWaited := [] } := by
        simp [runR2ProviderOperation, runR2Loop, ProviderMaxAttempts,
          ProviderRetryDelaysMs, h1, hr1]
      refine ⟨by rw [ho]; norm_num, by rw [ho]; rfl, ?_, ?_⟩
      · intro k hk1 hk2
        rw [ho] at hk2
        simp only at hk2
        omega
      · intro e he hre
        cases he
        exact ⟨by rw [ho], by rw [ho]⟩
    case pos =>
      rcases h2 : run 2 with e2 | d2
      case ok =>
        have ho : runR2ProviderOperation run
            = { result := .ok d2, attempts := 2, delaysWaited := [250] } := by
          simp [runR2ProviderOperation, runR2Loop, ProviderMaxAttempts,
            ProviderRetryDelaysMs, getRetryDelayMs, h1, hr1, h2]
        refine ⟨by rw [ho]; norm_num, by rw [ho]; rfl, ?_, ?_⟩
        · intro k hk1 hk2
          rw [ho] at hk2
          simp only at hk2
          have : k = 1 := by omega
          subst this
          exact ⟨e1, h1, hr1⟩
        · intro e he hre
          cases he
          exact absurd hr1 (by simp [hre])
      case error =>
        by_cases hr2 : errorIsRetryable e2
        case neg =>
          have ho : runR2ProviderOperation run
              = { result := .err .UPLOAD_PROVIDER_UNAVAILABLE
                    (getReadableStorageError (normalizeStorageError e2)),
                  attempts := 2, delaysWaited := [250] } := by
            simp [runR2ProviderOperation, runR2Loop, ProviderMaxAttempts,
              ProviderRetryDelaysMs, getRetryDelayMs, h1, hr1, h2, hr2]
          refine ⟨by rw [ho]; norm_num, by rw [ho]; rfl, ?_, ?_⟩
          · intro k hk1 hk2
            rw [ho] at hk2
            simp only at hk2
            have : k = 1 := by omega
            subst this
            exact ⟨e1, h1, hr1⟩
          · intro e he hre
            cases he
            exact absurd hr1 (by simp [hre])
        case pos =>
          rcases h3 : run 3 with e3 | d3
          case ok =>
            have ho : runR2ProviderOperation run
                = { result := .ok d3, attempts := 3,
                    delaysWaited := [250, 750] } := by
              simp [runR2ProviderOperation, runR2Loop, ProviderMaxAttempts,
                ProviderRetryDelaysMs, getRetryDelayMs, h1, hr1, h2, hr2, h3]
            refine ⟨by rw [ho], by rw [ho]; rfl, ?_, ?_⟩
            · intro k hk1 hk2
              rw [ho] at hk2
              simp only at hk2
              have : k = 1 ∨ k = 2 := by omega
              rcases this with rfl | rfl
              · exact ⟨e1, h1, hr1⟩
              · exact ⟨e2, h2, hr2⟩
            · intro e he hre
              cases he
              exact absurd hr1 (by simp [hre])
          case error =>
            have ho : runR2ProviderOperation run
                = { result := .err .UPLOAD_PROVIDER_UNAVAILABLE
                      (getReadableStorageError (normalizeStorageError e3)),
                    attempts := 3, delaysWaited := [250, 750] } := by
              simp [runR2ProviderOperation, runR2Loop, ProviderMaxAttempts,
                ProviderRetryDelaysMs, getRetryDelayMs, h1, hr1, h2, hr2, h3]
            refine ⟨by rw [ho], by rw [ho]; rfl, ?_, ?_⟩
            · intro k hk1 hk2
              rw [ho] at hk2
              simp only at hk2
              have : k = 1 ∨ k = 2 := by omega
              rcases this with rfl | rfl
              · exact ⟨e1, h1, hr1⟩
              · exact ⟨e2, h2, hr2⟩
            · intro e he hre
              cases he
              exact absurd hr1 (by simp [hre])

/-- C6 witness: a first-attempt `DOM_PARSER_UNAVAILABLE` failure (a
non-retryable cause code) stops the loop after exactly one attempt. -/
theorem c6_provider_retry_bounded_witness :
    (runR2ProviderOperation exFailNonRetryableRun).attempts = 1
    ∧ (runR2ProviderOperation exFailNonRetryableRun).result
        = .err .UPLOAD_PROVIDER_UNAVAILABLE
            (getReadableStorageError (normalizeStorageError exNonRetryableError)) :=
  (c6_provider_retry_bounded exFailNonRetryableRun).2.2.2 exNonRetryableError
    rfl (by decide)

/-! ## C3: initiate size validation and totalParts -/

theorem den_one_num_cast (q : Rat) (h : q.den = 1) : ((q.num : Rat)) = q := by
  rw [← Rat.num_div_den q, h]
  simp

theorem uploadPartSizeBytes_pos : (0 : Int) < UploadPartSizeBytes := by
  norm_num [UploadPartSizeBytes]

theorem jsCeilDiv_bounds (n : Int) (h1 : 1 ≤ n) (h2 : n ≤ UploadMaxFileSizeBytes) :
    1 ≤ jsCeilDivInt n UploadPartSizeBytes
      ∧ jsCeilDivInt n UploadPartSizeBytes ≤ UploadMaxParts := by
  rw [jsCeilDivInt_eq_ratCeil _ _ uploadPartSizeBytes_pos]
  constructor
  · have hpos : (0 : ℚ) < (n : ℚ) / (UploadPartSizeBytes : ℚ) := by
      apply div_pos
      · exact_mod_cast h1
      · exact_mod_cast uploadPartSizeBytes_pos
    have := Int.lt_ceil.mpr (show ((0 : Int) : ℚ) < (n : ℚ) / (UploadPartSizeBytes : ℚ) by
      exact_mod_cast hpos)
    omega
  · apply Int.ceil_le.mpr
    rw [div_le_iff₀ (by norm_num [UploadPartSizeBytes])]
    have hn : (n : ℚ) ≤ (UploadMaxFileSizeBytes : ℚ) := by exact_mod_cast h2
    calc (n : ℚ) ≤ (UploadMaxFileSizeBytes : ℚ) := hn
      _ = ((UploadMaxParts : Int) : ℚ) * (UploadPartSizeBytes : ℚ) := by
          norm_num [UploadMaxFileSizeBytes, UploadMaxParts, UploadPartSizeBytes]

/-- C3 helper: every error branch of `validateInitiateInput` carries
`INVALID_INPUT`, and the size guard fires on every non-integer or
out-of-range size. -/
theorem validateInitiateInput_invalid_size (questionId fileName : String)
    (fileSizeBytes : Rat) (contentType : String)
    (hbad : ¬ fileSizeBytes.den = 1 ∨ fileSizeBytes < (UploadMinFileSizeBytes : ℚ)
      ∨ fileSizeBytes > (UploadMaxFileSizeBytes : ℚ)) :
    ∃ msg, validateInitiateInput questionId fileName fileSizeBytes contentType
      = .err .INVALID_INPUT msg := by
  simp only [validateInitiateInput]
  split
  · exact ⟨_, rfl⟩
  split
  · exact ⟨_, rfl⟩
  split
  · exact ⟨_, rfl⟩
  split
  · exact ⟨_, rfl⟩
  · rename_i hguard
    exfalso
    rcases not_or.mp hguard with ⟨hden, hcmp⟩
    rcases not_or.mp hcmp with ⟨hlo, hhi⟩
    have hden1 : fileSizeBytes.den = 1 := not_not.mp hden
    have hcast : ((fileSizeBytes.num : Rat)) = fileSizeBytes :=
      den_one_num_cast _ hden1
    rcases hbad with h | h | h
    · exact h hden1
    · apply hlo
      rw [← hcast] at h
      exact_mod_cast h
    · apply hhi
      rw [← hcast] at h
      exact_mod_cast h

/-- C3 helper: inversion of a successful `validateInitiateInput`. -/
theorem validateInitiateInput_ok_inversion (questionId fileName : String)
    (fileSizeBytes : Rat) (contentType : String) (v : ValidatedInitiateInput)
    (h : validateInitiateInput questionId fileName fileSizeBytes contentType
      = .ok v) :
    fileSizeBytes.den = 1
      ∧ v.totalParts = jsCeilDivInt fileSizeBytes.num UploadPartSizeBytes := by
  simp only [validateInitiateInput] at h
  split at h
  · cases h
  split at h
  · cases h
  split at h
  · cases h
  split at h
  · cases h
  split at h
  · cases h
  · rename_i hguard hcap
    cases h
    exact ⟨not_not.mp (not_or.mp hguard).1, rfl⟩

/-- C3: for every integer `fileSizeBytes` in `[1, partSize * maxParts]`
(and otherwise-valid inputs) `validateInitiateInput` succeeds with
`totalParts = ceil(fileSizeBytes / partSize)`, and any successful
`initiateUpload` returns and persists exactly that `totalParts`; for every
size outside the range or non-integer, `initiateUpload` fails with an
input-validation error and leaves the database unchanged — no session row
is persisted. -/
theorem c3_initiate_size_validation (db : Db) (a : InitiateUploadArgs) :
    ((a.fileSizeBytes.den = 1 →
      (UploadMinFileSizeBytes : ℚ) ≤ a.fileSizeBytes →
      a.fileSizeBytes ≤ (UploadMaxFileSizeBytes : ℚ) →
      isValidQuestionId a.questionId = true →
      1 ≤ (sanitizeFileName a.fileName).length →
      (sanitizeFileName a.fileName).length ≤ 255 →
      1 ≤ (jsTrim a.contentType).length →
      (jsTrim a.contentType).length ≤ 255 →
      validateInitiateInput a.questionId a.fileName a.fileSizeBytes a.contentType
        = .ok { questionId := a.questionId,
                fileName := sanitizeFileName a.fileName,
                contentType := jsTrim a.contentType,
                totalParts := ⌈a.fileSizeBytes / (UploadPartSizeBytes : ℚ)⌉ }))
    ∧ (∀ d out, initiateUpload db a = (d, .ok out) →
        out.totalParts = ⌈a.fileSizeBytes / (UploadPartSizeBytes : ℚ)⌉
        ∧ ∃ s, d.sessions = db.sessions ++ [s]
            ∧ s.totalParts = ⌈a.fileSizeBytes / (UploadPartSizeBytes : ℚ)⌉)
    ∧ ((¬ a.fileSizeBytes.den = 1 ∨ a.fileSizeBytes < (UploadMinFileSizeBytes : ℚ)
          ∨ a.fileSizeBytes > (UploadMaxFileSizeBytes : ℚ)) →
        ∃ msg, initiateUpload db a = (db, .err .INVALID_INPUT msg)) := by
  have hceil : ∀ hden : a.fileSizeBytes.den = 1,
      jsCeilDivInt a.fileSizeBytes.num UploadPartSizeBytes
        = ⌈a.fileSizeBytes / (UploadPartSizeBytes : ℚ)⌉ := by
    intro hden
    rw [jsCeilDivInt_eq_ratCeil _ _ uploadPartSizeBytes_pos,
      den_one_num_cast _ hden]
  have hsessions : (getOrCreateSubmission db a.tenderId a.userId
      a.freshSubmissionId a.now).1.sessions = db.sessions := by
    unfold getOrCreateSubmission
    split
    · rfl
    · rfl
  refine ⟨?_, ?_, ?_⟩
  · intro hden hlo hhi hq hf1 hf2 hc1 hc2
    have hlo' : UploadMinFileSizeBytes ≤ a.fileSizeBytes.num := by
      rw [← den_one_num_cast _ hden] at hlo
      exact_mod_cast hlo
    have hhi' : a.fileSizeBytes.num ≤ UploadMaxFileSizeBytes := by
      rw [← den_one_num_cast _ hden] at hhi
      exact_mod_cast hhi
    have hb := jsCeilDiv_bounds a.fileSizeBytes.num hlo' hhi'
    simp only [validateInitiateInput]
    rw [if_neg (by simp [hq]), if_neg (by omega), if_neg (by omega),
      if_neg (by push_neg; exact ⟨hden, by omega, by omega⟩),
      if_neg (by omega)]
    rw [hceil hden]
  · intro d out hok
    unfold initiateUpload at hok
    rcases hval : validateInitiateInput a.questionId a.fileName a.fileSizeBytes
        a.contentType with ⟨v⟩ | ⟨c, e⟩
    case err =>
      simp only [hval] at hok
      simp at hok
    case ok =>
      simp only [hval] at hok
      rcases ht : getActiveTender db a.tenderId with _ | tender
      case none =>
        simp only [ht] at hok
        simp at hok
      case some =>
        simp only [ht] at hok
        split at hok
        · simp at hok
        · rcases hp : a.providerCreate with ⟨pr⟩ | ⟨c, e⟩
          case err =>
            simp only [hp] at hok
            simp at hok
          case ok =>
            obtain ⟨uploadId, parts⟩ := pr
            simp only [hp] at hok
            obtain ⟨hvden, hvtp⟩ :=
              validateInitiateInput_ok_inversion _ _ _ _ _ hval
            rw [Prod.mk.injEq] at hok
            obtain ⟨hd, hout⟩ := hok
            cases hout
            subst hd
            refine ⟨?_, ?_⟩
            · show v.totalParts = _
              rw [hvtp, hceil hvden]
            · refine ⟨({ id := a.freshSessionId, tenderId := tender.id,
                           submissionId := ((getOrCreateSubmission db a.tenderId
                             a.userId a.freshSubmissionId a.now).2.id),
                           userId := a.userId, questionId := v.questionId,
                           fileName := v.fileName,
                           fileSizeBytes := a.fileSizeBytes.num,
                           contentType := v.contentType,
                           objectKey := a.objectKey, uploadId := uploadId,
                           partSizeBytes := UploadPartSizeBytes,
                           totalParts := v.totalParts,
                           expiresAt := a.now + UploadSessionTtlMs,
                           status := UploadSessionStatuses.INITIATED,
                           completedAt := none, isActive := true,
                           updatedAt := a.now } : UploadSessionRow), ?_, ?_⟩
              · dsimp only
                rw [hsessions]
              · show v.totalParts = _
                rw [hvtp, hceil hvden]
  · intro hbad
    obtain ⟨msg, hmsg⟩ := validateInitiateInput_invalid_size a.questionId
      a.fileName a.fileSizeBytes a.contentType hbad
    refine ⟨msg, ?_⟩
    unfold initiateUpload
    rw [hmsg]

/-- C3 witness: a 24 MiB file yields exactly 3 parts, and `initiateUpload`
persists that count; a fractional size is rejected with the database
unchanged. -/
theorem c3_initiate_size_validation_witness :
    (∃ s, (initiateUpload exDb exInitiateArgs).1.sessions
        = exDb.sessions ++ [s]
        ∧ s.totalParts = ⌈(25165824 : Rat) / (UploadPartSizeBytes : ℚ)⌉)
    ∧ ∃ msg,
      initiateUpload exDb
          { exInitiateArgs with fileSizeBytes := Rat.mk' 7 2 (by decide) (by decide) }
        = (exDb, .err .INVALID_INPUT msg) := by
  constructor
  · have h := (c3_initiate_size_validation exDb exInitiateArgs).2.1
      (initiateUpload exDb exInitiateArgs).1
      { uploadSessionId := "sess2", uploadId := "up2",
        objectKey := "sub1/q2/video.mp4", partSizeBytes := UploadPartSizeBytes,
        totalParts := 3, expiresAt := 100 + UploadSessionTtlMs,
        parts := [{ partNumber := 1, url := "u-1", expiresAt := "x" },
                  { partNumber := 2, url := "u-2", expiresAt := "x" },
                  { partNumber := 3, url := "u-3", expiresAt := "x" }] }
      (by decide)
    exact h.2
  · exact (c3_initiate_size_validation exDb
      { exInitiateArgs with fileSizeBytes := Rat.mk' 7 2 (by decide) (by decide) }).2.2
      (Or.inl (by decide))

/-! ## C4: submit requires every required question -/

/-- C4: on a draft submission, `submitTender` succeeds iff every required
question id (q1, q2, q3, q5) has an active UploadedFile; when some are
missing, the error reports the complete ordered set of missing required
ids, not only the first; on success the submission is marked submitted
with the call's timestamp; and an already-submitted submission is always
rejected. -/
theorem c4_submit_required_uploads (db : Db) (a : SubmitTenderArgs)
    (tender : TenderRow) (sub : SubmissionRow)
    (htender : getActiveTender db a.tenderId = some tender)
    (hsub : findSubmissionFor db tender.id a.userId = some sub) :
    (sub.status = SubmissionStatuses.SUBMITTED →
      submitTender db a
        = (db, .err .SUBMISSION_ALREADY_SUBMITTED "Submission already submitted"))
    ∧ (sub.status ≠ SubmissionStatuses.SUBMITTED →
      (((submitTender db a).2.isOk = true)
          ↔ ∀ q ∈ RequiredUploadQuestionIds, hasActiveUploadFor db sub.id q = true)
      ∧ (missingRequiredQuestionIds db sub.id ≠ [] →
          (submitTender db a).2
            = .err .MISSING_REQUIRED_UPLOADS
                ("Missing required uploads: "
                  ++ String.intercalate ", " (missingRequiredQuestionIds db sub.id)))
      ∧ (∀ q, q ∈ missingRequiredQuestionIds db sub.id
          ↔ q ∈ RequiredUploadQuestionIds ∧ hasActiveUploadFor db sub.id q = false)
      ∧ ((submitTender db a).2.isOk = true →
          ∃ s ∈ (submitTender db a).1.submissions,
            s.id = sub.id ∧ s.status = SubmissionStatuses.SUBMITTED
              ∧ s.submittedAt = some a.now)) := by
  have hgo : getOrCreateSubmission db tender.id a.userId a.freshSubmissionId a.now
      = (db, sub) := by
    unfold getOrCreateSubmission
    rw [hsub]
  have hE : submitTender db a
      = (if sub.status = SubmissionStatuses.SUBMITTED then
          (db, .err .SUBMISSION_ALREADY_SUBMITTED "Submission already submitted")
        else if (missingRequiredQuestionIds db sub.id).length > 0 then
          (db, .err .MISSING_REQUIRED_UPLOADS
            ("Missing required uploads: "
              ++ String.intercalate ", " (missingRequiredQuestionIds db sub.id)))
        else
          ({ db with submissions := db.submissions.map (fun s =>
              if s.id == sub.id then
                { s with status := SubmissionStatuses.SUBMITTED,
                         submittedAt := some a.now, updatedAt := a.now }
              else s) },
            .ok { tenderId := tender.id, status := SubmissionStatuses.SUBMITTED,
                  submittedAt := a.now })) := by
    simp only [submitTender, htender, hgo]
  have hmiss_iff : ∀ q, q ∈ missingRequiredQuestionIds db sub.id
      ↔ q ∈ RequiredUploadQuestionIds ∧ hasActiveUploadFor db sub.id q = false := by
    intro q
    simp [missingRequiredQuestionIds, List.mem_filter]
  refine ⟨?_, ?_⟩
  · intro hst
    rw [hE, if_pos hst]
  · intro hst
    rw [hE, if_neg hst] at *
    refine ⟨?_, ?_, hmiss_iff, ?_⟩
    · constructor
      · intro hok q hq
        by_contra habs
        have hmem : q ∈ missingRequiredQuestionIds db sub.id :=
          (hmiss_iff q).mpr ⟨hq, by
            cases h : hasActiveUploadFor db sub.id q
            · rfl
            · exact absurd h habs⟩
        have hlen : (missingRequiredQuestionIds db sub.id).length > 0 :=
          List.length_pos.mpr (List.ne_nil_of_mem hmem)
        rw [if_pos hlen] at hok
        simp [ServiceResult.isOk] at hok
      · intro hall
        have hm : missingRequiredQuestionIds db sub.id = [] := by
          apply List.filter_eq_nil_iff.mpr
          intro q hq
          simp [hall q hq]
        rw [hm]
        simp [ServiceResult.isOk]
    · intro hmiss
      rw [if_pos (List.length_pos.mpr hmiss)]
    · intro hok
      by_cases hmiss : missingRequiredQuestionIds db sub.id = []
      · rw [hmiss] at hok ⊢
        simp only [List.length_nil, gt_iff_lt, lt_irrefl, if_false] at hok ⊢
        have hsubmem : sub ∈ db.submissions := by
          have := List.mem_of_find?_eq_some hsub
          exact this
        refine ⟨({ sub with
                     status := SubmissionStatuses.SUBMITTED,
                     submittedAt := some a.now,
                     updatedAt := a.now } : SubmissionRow), ?_, rfl, rfl, rfl⟩
        exact List.mem_map.mpr ⟨sub, hsubmem, by simp⟩
      · rw [if_pos (List.length_pos.mpr hmiss)] at hok
        simp [ServiceResult.isOk] at hok

/-- C4 witness: on `exDb` (only q1 has an active file) submission is
rejected with the full missing set q2, q3, q5 reported in one error. -/
theorem c4_submit_required_uploads_witness :
    (submitTender exDb exSubmitArgs).2
      = .err .MISSING_REQUIRED_UPLOADS
          ("Missing required uploads: " ++ String.intercalate ", "
            (missingRequiredQuestionIds exDb exDraftSubmission.id))
    ∧ missingRequiredQuestionIds exDb exDraftSubmission.id = ["q2", "q3", "q5"] :=
  ⟨((c4_submit_required_uploads exDb exSubmitArgs exTender exDraftSubmission
      (by decide) (by decide)).2 (by decide)).2.1 (by decide), by decide⟩

/-! ## C5 (amended) and C10: abortUpload -/

/-- C5 counterexample to the claim as stated: on `exDb` an earlier
completed upload left `exPriorFile` active for `("sub1", "q1")`; aborting
the new initiated session `sess1` for the same question succeeds, yet the
pair still has an active UploadedFile afterwards — the slot is not left
empty. -/
theorem c5_abort_claim_counterexample :
    (abortUpload exDb exAbortArgs).2 = .ok ()
    ∧ activeFilesFor (abortUpload exDb exAbortArgs).1 "sub1" "q1" = [exPriorFile]
    ∧ activeFilesFor (abortUpload exDb exAbortArgs).1 "sub1" "q1" ≠ [] := by
  refine ⟨by decide, by decide, by decide⟩

/-- C5 (amended): a successful `abortUpload` marks the session row
`aborted` and leaves the UploadedFile table completely unchanged — it
activates no file and deactivates none, so the question's pair gains no
active UploadedFile (and keeps any that a previous completion left
active). -/
theorem c5_abort_aborts_session_preserves_files (db : Db) (a : AbortUploadArgs)
    (d : Db) (h : abortUpload db a = (d, .ok ())) :
    d.files = db.files
    ∧ ∃ tender uploadSession,
        getActiveTender db a.tenderId = some tender
        ∧ getUploadSession db (jsTrim a.uploadSessionId) tender.id a.userId
            = some uploadSession
        ∧ d.sessions = db.sessions.map (fun s =>
            if s.id == uploadSession.id then
              { s with status := UploadSessionStatuses.ABORTED, updatedAt := a.now }
            else s)
        ∧ ∀ submissionId questionId,
            activeFilesFor d submissionId questionId
              = activeFilesFor db submissionId questionId := by
  simp only [abortUpload] at h
  split at h
  · simp at h
  rcases ht : getActiveTender db a.tenderId with _ | tender
  · simp only [ht] at h
    simp at h
  · simp only [ht] at h
    rcases hs : getUploadSession db (jsTrim a.uploadSessionId) tender.id a.userId
      with _ | uploadSession
    · simp only [hs] at h
      simp at h
    · simp only [hs] at h
      split at h
      · simp at h
      · rcases hsubm : getSubmission db uploadSession.submissionId with _ | sub
        · simp only [hsubm] at h
          simp at h
        · simp only [hsubm] at h
          split at h
          · simp at h
          · rcases hp : a.providerAbort with ⟨u⟩ | ⟨c, e⟩
            · simp only [hp] at h
              rw [Prod.mk.injEq] at h
              obtain ⟨hd, -⟩ := h
              subst hd
              exact ⟨rfl, tender, uploadSession, rfl, hs, rfl, fun _ _ => rfl⟩
            · simp only [hp] at h
              simp at h

/-- C5 witness: the amended theorem applied to the concrete abort on
`exDb`. -/
theorem c5_abort_aborts_session_preserves_files_witness :
    (abortUpload exDb exAbortArgs).1.files = exDb.files
    ∧ ∃ tender uploadSession,
        getActiveTender exDb exAbortArgs.tenderId = some tender
        ∧ getUploadSession exDb (jsTrim exAbortArgs.uploadSessionId) tender.id
            exAbortArgs.userId = some uploadSession
        ∧ (abortUpload exDb exAbortArgs).1.sessions
            = exDb.sessions.map (fun s =>
              if s.id == uploadSession.id then
                { s with status := UploadSessionStatuses.ABORTED,
                         updatedAt := exAbortArgs.now }
              else s)
        ∧ ∀ submissionId questionId,
            activeFilesFor (abortUpload exDb exAbortArgs).1 submissionId questionId
              = activeFilesFor exDb submissionId questionId :=
  c5_abort_aborts_session_preserves_files exDb exAbortArgs
    (abortUpload exDb exAbortArgs).1 (by decide)

/-- C10: for an initiated, owned session on a draft submission, a failed
provider-side abort makes `abortUpload` return that error with the
database — in particular the session row and its `initiated` status —
untouched; and in general the session table only changes when the
provider abort succeeded. -/
theorem c10_abort_atomic_on_provider_failure (db : Db) (a : AbortUploadArgs)
    (tender : TenderRow) (uploadSession : UploadSessionRow) (sub : SubmissionRow)
    (hlen : ¬ (jsTrim a.uploadSessionId).length = 0)
    (ht : getActiveTender db a.tenderId = some tender)
    (hs : getUploadSession db (jsTrim a.uploadSessionId) tender.id a.userId
      = some uploadSession)
    (hstat : uploadSession.status = UploadSessionStatuses.INITIATED)
    (hsubm : getSubmission db uploadSession.submissionId = some sub)
    (hdraft : sub.status ≠ SubmissionStatuses.SUBMITTED) :
    (∀ c e, a.providerAbort = .err c e → abortUpload db a = (db, .err c e))
    ∧ (∀ d r, abortUpload db a = (d, r) → d.sessions ≠ db.sessions →
        ∃ u, a.providerAbort = .ok u) := by
  have hrun : ∀ c e, a.providerAbort = .err c e →
      abortUpload db a = (db, .err c e) := by
    intro c e hp
    simp only [abortUpload]
    rw [if_neg hlen]
    simp only [ht, hs]
    rw [if_neg (by simp [hstat])]
    simp only [hsubm]
    rw [if_neg hdraft, hp]
  refine ⟨hrun, ?_⟩
  intro d r habort hneq
  rcases hp : a.providerAbort with ⟨u⟩ | ⟨c, e⟩
  · exact ⟨u, rfl⟩
  · rw [hrun c e hp] at habort
    rw [Prod.mk.injEq] at habort
    obtain ⟨hd, -⟩ := habort
    subst hd
    exact absurd rfl hneq

/-- C10 witness: the concrete session on `exDb` with a failing provider
abort — the call surfaces the provider error with the database
unchanged. -/
theorem c10_abort_atomic_on_provider_failure_witness :
    abortUpload exDb exAbortArgsProviderDown
      = (exDb, .err .UPLOAD_PROVIDER_UNAVAILABLE
          "Upload service is temporarily unavailable. Please retry.") :=
  (c10_abort_atomic_on_provider_failure exDb exAbortArgsProviderDown exTender
    exSession exDraftSubmission (by decide) (by decide) (by decide) (by decide)
    (by decide) (by decide)).1 .UPLOAD_PROVIDER_UNAVAILABLE
    "Upload service is temporarily unavailable. Please retry." rfl

/-! ## Parts-validation lemmas (towards C1 and C2) -/

theorem validatePartsLoop_map_partNumber :
    ∀ (parts : List CompletedUploadPart) (seen : List Int)
      (acc w : List CompletedUploadPart),
      validatePartsLoop parts seen acc = .ok w →
      w.map (fun p => p.partNumber)
        = acc.map (fun p => p.partNumber) ++ parts.map (fun p => p.partNumber) := by
  intro parts
  induction parts with
  | nil =>
    intro seen acc w h
    simp only [validatePartsLoop] at h
    cases h
    simp
  | cons part rest ih =>
    intro seen acc w h
    simp only [validatePartsLoop] at h
    split at h
    · cases h
    split at h
    · cases h
    split at h
    · cases h
    · have hrec := ih _ _ _ h
      rw [hrec]
      simp

theorem validatePartsLoop_etags :
    ∀ (parts : List CompletedUploadPart) (seen : List Int)
      (acc w : List CompletedUploadPart),
      validatePartsLoop parts seen acc = .ok w →
      ∀ p ∈ parts, (jsTrim p.etag).length ≠ 0 := by
  intro parts
  induction parts with
  | nil =>
    intro seen acc w h p hp
    cases hp
  | cons part rest ih =>
    intro seen acc w h p hp
    simp only [validatePartsLoop] at h
    split at h
    · cases h
    split at h
    · cases h
    split at h
    · cases h
    · rename_i hpn hetag hdup
      rcases List.mem_cons.mp hp with rfl | hmem
      · exact hetag
      · exact ih _ _ _ h p hmem

theorem insertPartSorted_perm (p : CompletedUploadPart) :
    ∀ l : List CompletedUploadPart, (insertPartSorted p l).Perm (p :: l) := by
  intro l
  induction l with
  | nil => simp [insertPartSorted]
  | cons q rest ih =>
    simp only [insertPartSorted]
    split
    · exact List.Perm.refl _
    · exact (List.Perm.cons q ih).trans (List.Perm.swap p q rest)

theorem sortPartsByNumber_perm :
    ∀ l : List CompletedUploadPart, (sortPartsByNumber l).Perm l := by
  intro l
  induction l with
  | nil => exact List.Perm.refl _
  | cons p rest ih =>
    simp only [sortPartsByNumber]
    exact ((insertPartSorted_perm p _).trans (List.Perm.cons p ih))

/-- Inversion of a successful `validateCompletedParts`: the returned list
holds the same part numbers as the payload (as a multiset), and every
payload etag is non-empty after trimming. -/
theorem validateCompletedParts_ok (parts w : List CompletedUploadPart)
    (h : validateCompletedParts parts = .ok w) :
    (w.map (fun p => p.partNumber)).Perm (parts.map (fun p => p.partNumber))
      ∧ ∀ p ∈ parts, (jsTrim p.etag).length ≠ 0 := by
  simp only [validateCompletedParts] at h
  split at h
  · cases h
  · split at h
    · rename_i normalized hloop
      cases h
      constructor
      · have hperm := (sortPartsByNumber_perm normalized).map
          (fun p => p.partNumber)
        rw [validatePartsLoop_map_partNumber parts [] [] normalized hloop] at hperm
        simpa using hperm
      · exact validatePartsLoop_etags parts [] [] normalized hloop
    · cases h

/-- Positional check inversion: a list of `totalParts` parts passing the
`1..totalParts` positional loop carries exactly the part numbers
`1, ..., totalParts` in order. -/
theorem partsMatchPositions_eq (l : List CompletedUploadPart) (n : Int)
    (hlen : (l.length : Int) = n) (hpos : partsMatchPositions l n = true) :
    l.map (fun p => p.partNumber) = expectedPartNumbers n := by
  have hlen2 : l.length = n.toNat := by omega
  apply List.ext_get?
  intro i
  by_cases hi : i < n.toNat
  · have hfi := List.all_eq_true.mp hpos i (List.mem_range.mpr hi)
    rcases hgi : l.get? i with _ | p
    · rw [hgi] at hfi
      cases hfi
    · rw [hgi] at hfi
      have hpn : p.partNumber = (i : Int) + 1 := by
        simpa using hfi
      have h1 : (List.map (fun p => p.partNumber) l).get? i = some p.partNumber := by
        rw [List.get?_map, hgi]
        rfl
      have h2 : (expectedPartNumbers n).get? i = some ((i : Int) + 1) := by
        rw [expectedPartNumbers, List.get?_map, List.get?_range hi]
        rfl
      rw [h1, h2, hpn]
  · have h1 : (l.map (fun p => p.partNumber)).get? i = none := by
      apply List.get?_eq_none.mpr
      rw [List.length_map, hlen2]
      omega
    have h2 : (expectedPartNumbers n).get? i = none := by
      apply List.get?_eq_none.mpr
      rw [expectedPartNumbers, List.length_map, List.length_range]
      omega
    rw [h1, h2]

/-- Case analysis of `completeUpload`: either it fails without touching
the database, or all part checks passed: the payload validated and, for
the session found, the part count and the positional `1..totalParts`
check hold. -/
theorem completeUpload_cases (db : Db) (a : CompleteUploadArgs) :
    ((completeUpload db a).2.isOk = false ∧ (completeUpload db a).1 = db)
    ∨ (∃ v tender uploadSession,
        validateCompletedParts a.parts = .ok v
        ∧ getActiveTender db a.tenderId = some tender
        ∧ getUploadSession db a.uploadSessionId tender.id a.userId
            = some uploadSession
        ∧ (v.length : Int) = uploadSession.totalParts
        ∧ partsMatchPositions v uploadSession.totalParts = true) := by
  rcases hv : validateCompletedParts a.parts with ⟨v⟩ | ⟨c, e⟩
  case err =>
    left
    simp only [completeUpload, hv]
    constructor <;> trivial
  case ok =>
  rcases ht : getActiveTender db a.tenderId with _ | tender
  · left
    simp only [completeUpload, hv, ht]
    constructor <;> trivial
  rcases hs : getUploadSession db a.uploadSessionId tender.id a.userId
    with _ | uploadSession
  · left
    simp only [completeUpload, hv, ht, hs]
    constructor <;> trivial
  by_cases h1 : uploadSession.status ≠ UploadSessionStatuses.INITIATED
  · left
    simp only [completeUpload, hv, ht, hs]
    rw [if_pos h1]
    constructor <;> trivial
  by_cases h2 : uploadSession.expiresAt < a.now
  · left
    simp only [completeUpload, hv, ht, hs]
    rw [if_neg h1, if_pos h2]
    constructor <;> trivial
  rcases hsubm : getSubmission db uploadSession.submissionId with _ | submission
  · left
    simp only [completeUpload, hv, ht, hs, hsubm]
    rw [if_neg h1, if_neg h2]
    constructor <;> trivial
  by_cases h3 : submission.status = SubmissionStatuses.SUBMITTED
  · left
    simp only [completeUpload, hv, ht, hs, hsubm]
    rw [if_neg h1, if_neg h2, if_pos h3]
    constructor <;> trivial
  by_cases h4 : (v.length : Int) ≠ uploadSession.totalParts
  · left
    simp only [completeUpload, hv, ht, hs, hsubm]
    rw [if_neg h1, if_neg h2, if_neg h3, if_pos h4]
    constructor <;> trivial
  by_cases h5 : ¬ partsMatchPositions v uploadSession.totalParts
  · left
    simp only [completeUpload, hv, ht, hs, hsubm]
    rw [if_neg h1, if_neg h2, if_neg h3, if_neg h4, if_pos h5]
    constructor <;> trivial
  · right
    exact ⟨v, tender, uploadSession, rfl, rfl, hs, not_not.mp h4,
      not_not.mp h5⟩

/-! ## C2: completeness validation of the parts payload -/

/-- C2: for an existing, unexpired, still-initiated, owned session on a
draft submission, `completeUpload` fails and leaves the database unchanged
whenever the payload's part-number multiset differs from
`{1, ..., totalParts}` (duplicate, gap, out-of-range number or wrong
count) or some etag is empty; conversely a successful call implies the
part numbers are exactly `1..totalParts` (as a multiset) with non-empty
etags. -/
theorem c2_complete_parts_exactness (db : Db) (a : CompleteUploadArgs)
    (tender : TenderRow) (uploadSession : UploadSessionRow)
    (submission : SubmissionRow)
    (ht : getActiveTender db a.tenderId = some tender)
    (hs : getUploadSession db a.uploadSessionId tender.id a.userId
      = some uploadSession)
    (hstat : uploadSession.status = UploadSessionStatuses.INITIATED)
    (hexp : ¬ uploadSession.expiresAt < a.now)
    (hsubm : getSubmission db uploadSession.submissionId = some submission)
    (hdraft : submission.status ≠ SubmissionStatuses.SUBMITTED) :
    ((¬ (a.parts.map (fun p => p.partNumber)).Perm
          (expectedPartNumbers uploadSession.totalParts)
        ∨ ∃ p ∈ a.parts, p.etag = "") →
      (completeUpload db a).2.isOk = false ∧ (completeUpload db a).1 = db)
    ∧ (∀ out, (completeUpload db a).2 = .ok out →
        (a.parts.map (fun p => p.partNumber)).Perm
          (expectedPartNumbers uploadSession.totalParts)
        ∧ ∀ p ∈ a.parts, p.etag ≠ "") := by
  rcases completeUpload_cases db a with ⟨hng, hdb⟩ |
    ⟨v, t2, s2, hv, ht2, hs2, hlen, hpos⟩
  · refine ⟨fun _ => ⟨hng, hdb⟩, ?_⟩
    intro out hout
    rw [hout] at hng
    simp [ServiceResult.isOk] at hng
  · rw [ht] at ht2
    injection ht2 with ht2e
    subst ht2e
    rw [hs] at hs2
    injection hs2 with hs2e
    subst hs2e
    obtain ⟨hperm0, hetags⟩ := validateCompletedParts_ok a.parts v hv
    have hexact : v.map (fun p => p.partNumber)
        = expectedPartNumbers uploadSession.totalParts :=
      partsMatchPositions_eq v uploadSession.totalParts hlen hpos
    have hperm : (a.parts.map (fun p => p.partNumber)).Perm
        (expectedPartNumbers uploadSession.totalParts) := by
      rw [← hexact]
      exact hperm0.symm
    have hetagsne : ∀ p ∈ a.parts, p.etag ≠ "" := by
      intro p hp hpe
      have hlenp := hetags p hp
      rw [hpe] at hlenp
      exact hlenp (by decide)
    refine ⟨?_, fun out _ => ⟨hperm, hetagsne⟩⟩
    intro hbad
    exfalso
    rcases hbad with hb | ⟨p, hp, hpe⟩
    · exact hb hperm
    · exact hetagsne p hp hpe

/-- C2 witness: a duplicated part number (payload `[1, 1]` against a
2-part session) is rejected with the database unchanged. -/
theorem c2_complete_parts_exactness_witness :
    (completeUpload exDb exBadCompleteArgs).2.isOk = false
    ∧ (completeUpload exDb exBadCompleteArgs).1 = exDb :=
  (c2_complete_parts_exactness exDb exBadCompleteArgs exTender exSession
    exDraftSubmission (by decide) (by decide) (by decide) (by decide)
    (by decide) (by decide)).1 (Or.inl (by decide))

/-! ## C1: exactly one active file per pair after a successful complete -/

theorem filter_deactivate_append (files : List UploadedFileRow)
    (sid qid : String) (now : Int) (newF : UploadedFileRow)
    (h1 : newF.isActive = true) (h2 : newF.submissionId = sid)
    (h3 : newF.questionId = qid) :
    (deactivatePriorFiles files sid qid now ++ [newF]).filter
      (fun f => f.isActive && f.submissionId == sid && f.questionId == qid)
      = [newF] := by
  rw [List.filter_append]
  have hnil : (deactivatePriorFiles files sid qid now).filter
      (fun f => f.isActive && f.submissionId == sid && f.questionId == qid)
      = [] := by
    apply List.filter_eq_nil_iff.mpr
    intro f hf
    simp only [deactivatePriorFiles, List.mem_map] at hf
    obtain ⟨g, hg, hfeq⟩ := hf
    subst hfeq
    by_cases hcond : (g.submissionId == sid && g.questionId == qid && g.isActive)
        = true
    · simp only [if_pos hcond]
      simp
    · simp only [if_neg hcond]
      simp only [Bool.and_eq_true, beq_iff_eq] at hcond ⊢
      intro habs
      exact hcond ⟨⟨habs.1.2, habs.2⟩, habs.1.1⟩
  rw [hnil]
  simp [List.filter, h1, h2, h3]

/-- C1: after every successful `completeUpload`, the uploaded-file table
is exactly the old table with every active file of the session's
`(submissionId, questionId)` pair soft-deactivated (rows are kept, only
the active flag and updatedAt change) plus one newly inserted file, which
is active for that pair — and it is the only active file for the pair. -/
theorem c1_complete_single_active_file (db : Db) (a : CompleteUploadArgs)
    (h : (completeUpload db a).2.isOk = true) :
    ∃ tender uploadSession newFile,
      getActiveTender db a.tenderId = some tender
      ∧ getUploadSession db a.uploadSessionId tender.id a.userId
          = some uploadSession
      ∧ (completeUpload db a).1.files
          = deactivatePriorFiles db.files uploadSession.submissionId
              uploadSession.questionId a.now ++ [newFile]
      ∧ newFile.isActive = true
      ∧ newFile.submissionId = uploadSession.submissionId
      ∧ newFile.questionId = uploadSession.questionId
      ∧ activeFilesFor (completeUpload db a).1 uploadSession.submissionId
          uploadSession.questionId = [newFile]
      ∧ (completeUpload db a).1.files.length = db.files.length + 1 := by
  rcases hv : validateCompletedParts a.parts with ⟨v⟩ | ⟨c, e⟩
  case err =>
    simp only [completeUpload, hv] at h
    simp [ServiceResult.isOk] at h
  case ok =>
  rcases ht : getActiveTender db a.tenderId with _ | tender
  · simp only [completeUpload, hv, ht] at h
    simp [ServiceResult.isOk] at h
  rcases hs : getUploadSession db a.uploadSessionId tender.id a.userId
    with _ | uploadSession
  · simp only [completeUpload, hv, ht, hs] at h
    simp [ServiceResult.isOk] at h
  by_cases h1 : uploadSession.status ≠ UploadSessionStatuses.INITIATED
  · simp only [completeUpload, hv, ht, hs] at h
    rw [if_pos h1] at h
    simp [ServiceResult.isOk] at h
  by_cases h2 : uploadSession.expiresAt < a.now
  · simp only [completeUpload, hv, ht, hs] at h
    rw [if_neg h1, if_pos h2] at h
    simp [ServiceResult.isOk] at h
  rcases hsubm : getSubmission db uploadSession.submissionId with _ | submission
  · simp only [completeUpload, hv, ht, hs, hsubm] at h
    rw [if_neg h1, if_neg h2] at h
    simp [ServiceResult.isOk] at h
  by_cases h3 : submission.status = SubmissionStatuses.SUBMITTED
  · simp only [completeUpload, hv, ht, hs, hsubm] at h
    rw [if_neg h1, if_neg h2, if_pos h3] at h
    simp [ServiceResult.isOk] at h
  by_cases h4 : (v.length : Int) ≠ uploadSession.totalParts
  · simp only [completeUpload, hv, ht, hs, hsubm] at h
    rw [if_neg h1, if_neg h2, if_neg h3, if_pos h4] at h
    simp [ServiceResult.isOk] at h
  by_cases h5 : ¬ partsMatchPositions v uploadSession.totalParts
  · simp only [completeUpload, hv, ht, hs, hsubm] at h
    rw [if_neg h1, if_neg h2, if_neg h3, if_neg h4, if_pos h5] at h
    simp [ServiceResult.isOk] at h
  rcases hp : a.providerComplete with ⟨etag⟩ | ⟨c, e⟩
  on_goal 2 =>
    simp only [completeUpload, hv, ht, hs, hsubm, hp] at h
    rw [if_neg h1, if_neg h2, if_neg h3, if_neg h4, if_neg h5] at h
    simp [ServiceResult.isOk] at h
  by_cases h6 : ¬ isValidQuestionId uploadSession.questionId
  · simp only [completeUpload, hv, ht, hs, hsubm, hp] at h
    rw [if_neg h1, if_neg h2, if_neg h3, if_neg h4, if_neg h5, if_pos h6] at h
    simp [ServiceResult.isOk] at h
  · have hE1 : (completeUpload db a).1.files
        = deactivatePriorFiles db.files uploadSession.submissionId
            uploadSession.questionId a.now
          ++ [⟨a.freshFileId, tender.id, uploadSession.submissionId, a.userId,
              uploadSession.questionId, uploadSession.id,
              uploadSession.objectKey, uploadSession.fileName,
              uploadSession.fileSizeBytes, uploadSession.contentType, etag,
              a.now, true, a.now⟩] := by
      simp only [completeUpload, hv, ht, hs, hsubm, hp]
      rw [if_neg h1, if_neg h2, if_neg h3, if_neg h4, if_neg h5, if_neg h6]
    refine ⟨tender, uploadSession,
      ⟨a.freshFileId, tender.id, uploadSession.submissionId, a.userId,
        uploadSession.questionId, uploadSession.id, uploadSession.objectKey,
        uploadSession.fileName, uploadSession.fileSizeBytes,
        uploadSession.contentType, etag, a.now, true, a.now⟩,
      rfl, hs, hE1, rfl, rfl, rfl, ?_, ?_⟩
    · rw [activeFilesFor, hE1]
      exact filter_deactivate_append db.files uploadSession.submissionId
        uploadSession.questionId a.now _ rfl rfl rfl
    · rw [hE1]
      simp [deactivatePriorFiles]

/-- C1 witness: completing session `sess1` on `exDb` (which already holds
the active `exPriorFile` for `("sub1", "q1")`) succeeds; the theorem then
yields the single-active-file shape for the pair. -/
theorem c1_complete_single_active_file_witness :
    (completeUpload exDb exCompleteArgs).2.isOk = true
    ∧ ∃ tender uploadSession newFile,
      getActiveTender exDb exCompleteArgs.tenderId = some tender
      ∧ getUploadSession exDb exCompleteArgs.uploadSessionId tender.id
          exCompleteArgs.userId = some uploadSession
      ∧ (completeUpload exDb exCompleteArgs).1.files
          = deactivatePriorFiles exDb.files uploadSession.submissionId
              uploadSession.questionId exCompleteArgs.now ++ [newFile]
      ∧ newFile.isActive = true
      ∧ newFile.submissionId = uploadSession.submissionId
      ∧ newFile.questionId = uploadSession.questionId
      ∧ activeFilesFor (completeUpload exDb exCompleteArgs).1
          uploadSession.submissionId uploadSession.questionId = [newFile]
      ∧ (completeUpload exDb exCompleteArgs).1.files.length
          = exDb.files.length + 1 :=
  ⟨by decide, c1_complete_single_active_file exDb exCompleteArgs (by decide)⟩

end MultipartUpload
